import Mathlib

/-!
# Saturn POST diagnostic: pattern tests and menu state machine

A shallow embedding of `saturn_post.c`.

* Hardware-mapped memory is reached through a `Backing`: a device state with a
  store and a load operation, both taking the access width in bits and the byte
  address.  Loads are `volatile` in the source; here they observe the device
  state without changing it.
* Everything the program does to the outside world (console calls, delays,
  frame syncs, bus accesses) is appended to a trace, newest event first.
* The controller is a list of pad samples; every `pad_port_status_get` call
  consumes one sample.
* `for` loops with a constant bound are structural recursions on the number of
  remaining iterations; the `uint32_t` loop counters stay far below `2^32`.
* The polling loops (`while (true)`) are unfolded into a step function over
  program points, one step per basic block between two pad polls.
-/

namespace SaturnPost

/-! ## Trace -/

/-- An argument of a collaborator call. -/
inductive Arg
  | num (v : Int)
  | str (v : String)
  | sym (v : String)
  deriving DecidableEq, Repr

/-- Observable events, in program order (the trace stores them newest first). -/
inductive Event
  | printf (fmt : String) (args : List Arg)
  | call (fn : String) (args : List Arg)
  | store (width addr val : Nat)
  | load (width addr : Nat)
  deriving DecidableEq, Repr

/-- One controller sample: button bitmask and two signed analog axes. -/
structure pad_state_t where
  buttons : Nat
  analog_x : Int
  analog_y : Int
  deriving DecidableEq, Repr

/-- A storage backing: device state with width-tagged stores and loads. -/
structure Backing (σ : Type) where
  store : σ → Nat → Nat → Nat → σ
  load : σ → Nat → Nat → Nat

/-- The world the program runs in. -/
structure World (σ : Type) where
  dev : σ
  trace : List Event
  pads : List pad_state_t
  regs : Nat → Nat

variable {σ : Type}

def emit (e : Event) (w : World σ) : World σ :=
  { w with trace := e :: w.trace }

def dbgio_printf (fmt : String) (args : List Arg) (w : World σ) : World σ :=
  emit (Event.printf fmt args) w

def dbgio_flush (w : World σ) : World σ :=
  emit (Event.call "dbgio_flush" []) w

def dbgio_clear (w : World σ) : World σ :=
  emit (Event.call "dbgio_clear" []) w

def delay (frames : Int) (w : World σ) : World σ :=
  emit (Event.call "delay" [Arg.num frames]) w

def vdp_sync (w : World σ) : World σ :=
  emit (Event.call "vdp_sync" []) w

def pad_port_connect (port : Int) (w : World σ) : World σ :=
  emit (Event.call "pad_port_connect" [Arg.num port]) w

/-- The call `pad_port_status_get(0, &pad)`: takes the next sample, if any. -/
def pad_port_status_get (w : World σ) : Option (pad_state_t × World σ) :=
  match w.pads with
  | [] => none
  | p :: rest => some (p, { w with pads := rest })

/-- A store of `width` bits through a `volatile` pointer. -/
def poke (B : Backing σ) (width addr val : Nat) (w : World σ) : World σ :=
  { w with dev := B.store w.dev width addr val,
           trace := Event.store width addr val :: w.trace }

/-- A load of `width` bits through a `volatile` pointer. -/
def peek (B : Backing σ) (width addr : Nat) (w : World σ) : Nat × World σ :=
  (B.load w.dev width addr % 2 ^ width, emit (Event.load width addr) w)

/-! ## Loops -/

/-- The loop `for (i = lo; i < lo + n; i++) body(i)`. -/
def forLoop {S : Type} (body : Nat → S → S) : Nat → Nat → S → S
  | 0, _, s => s
  | n + 1, i, s => forLoop body n (i + 1) (body i s)

/-- The same loop when the body may `return` out of the enclosing function:
`true` means the function has returned. -/
def forLoopRet {S : Type} (body : Nat → S → Bool × S) : Nat → Nat → S → Bool × S
  | 0, _, s => (false, s)
  | n + 1, i, s =>
    match body i s with
    | (true, s1) => (true, s1)
    | (false, s1) => forLoopRet body n (i + 1) s1

/-! ## Memory test -/

def memory_test.ram : Nat := 0x20000000

/-- The constant `test_len`; irreducible so that elaboration leaves the loops
over it folded. -/
@[irreducible] def memory_test.test_len : Nat := 0x1000

/-- The value `i ^ 0xAAAAAAAA` in `uint32_t`. -/
def memory_test.pattern (i : Nat) : Nat := (i ^^^ 0xAAAAAAAA) % 2 ^ 32

/-- The address `&ram[i]` of a `uint32_t` element. -/
def memory_test.addr (i : Nat) : Nat := memory_test.ram + 4 * i

def memory_test.write (B : Backing σ) (i : Nat) (w : World σ) : World σ :=
  poke B 32 (memory_test.addr i) (memory_test.pattern i) w

def memory_test.verify (B : Backing σ) (i : Nat) (w : World σ) : Bool × World σ :=
  let r := peek B 32 (memory_test.addr i) w
  if r.1 ≠ memory_test.pattern i then
    (true, dbgio_flush (dbgio_printf "Memory test FAIL at %08x\n"
      [Arg.num (memory_test.addr i)] r.2))
  else
    (false, r.2)

/-- The banner and the write loop of `memory_test`. -/
def memory_test.written (B : Backing σ) (w : World σ) : World σ :=
  forLoop (memory_test.write B) memory_test.test_len 0
    (dbgio_flush (dbgio_printf "Running Memory Test...\n" [] w))

/-- The end of `memory_test`, after the verify loop: nothing more if the loop
has returned, the PASS report otherwise. -/
def memory_test.conclude (r : Bool × World σ) : World σ :=
  match r with
  | (true, w) => w
  | (false, w) => delay 120 (dbgio_flush (dbgio_printf "Memory test PASS\n" [] w))

def memory_test (B : Backing σ) (w : World σ) : World σ :=
  memory_test.conclude
    (forLoopRet (memory_test.verify B) memory_test.test_len 0 (memory_test.written B w))

/-! ## VRAM test -/

def vram_test.vram : Nat := 0x25C00000

/-- The constant `size_words`; irreducible so that elaboration leaves the loops
over it folded. -/
@[irreducible] def vram_test.size_words : Nat := 0x20000

/-- The value `(uint16_t)(i ^ 0xAAAA)`, the xor taken in `uint32_t`. -/
def vram_test.pattern (i : Nat) : Nat := ((i ^^^ 0xAAAA) % 2 ^ 32) % 2 ^ 16

/-- The address `&vram[i]` of a `uint16_t` element. -/
def vram_test.addr (i : Nat) : Nat := vram_test.vram + 2 * i

def vram_test.write (B : Backing σ) (i : Nat) (w : World σ) : World σ :=
  poke B 16 (vram_test.addr i) (vram_test.pattern i) w

def vram_test.verify (B : Backing σ) (i : Nat) (w : World σ) : Bool × World σ :=
  let r := peek B 16 (vram_test.addr i) w
  if r.1 ≠ vram_test.pattern i then
    (true, delay 120 (dbgio_flush (dbgio_printf "VRAM test FAIL at %08x\n"
      [Arg.num (vram_test.addr i)] r.2)))
  else
    (false, r.2)

/-- The banner and the write loop of `vram_test`. -/
def vram_test.written (B : Backing σ) (w : World σ) : World σ :=
  forLoop (vram_test.write B) vram_test.size_words 0
    (dbgio_flush (dbgio_printf "Running VRAM Test...\n" [] w))

/-- The end of `vram_test`, after the verify loop: `return false` has happened
if the loop has returned, otherwise the PASS report and `return true`. -/
def vram_test.conclude (r : Bool × World σ) : Bool × World σ :=
  match r with
  | (true, w) => (false, w)
  | (false, w) => (true, delay 120 (dbgio_flush (dbgio_printf "VRAM test PASS\n" [] w)))

def vram_test (B : Backing σ) (w : World σ) : Bool × World σ :=
  vram_test.conclude
    (forLoopRet (vram_test.verify B) vram_test.size_words 0 (vram_test.written B w))

/-! ## Presentation tests -/

def vdp2_scrn_back_color_set (color : String) (w : World σ) : World σ :=
  emit (Event.call "vdp2_scrn_back_color_set" [Arg.sym "VDP2_VRAM_ADDR(3, 0x0)", Arg.sym color]) w

def color_test (w : World σ) : World σ :=
  let w := dbgio_flush (dbgio_printf "Running Color Test...\n" [] w)
  let w := vdp2_scrn_back_color_set "RGB1555(31, 0, 0)" w
  let w := emit (Event.call "vdp2_tvmd_display_set" []) w
  let w := delay 60 w
  let w := vdp2_scrn_back_color_set "RGB1555(0, 31, 0)" w
  let w := delay 60 w
  let w := vdp2_scrn_back_color_set "RGB1555(0, 0, 31)" w
  let w := delay 60 w
  let w := vdp2_scrn_back_color_set "RGB1555(31, 31, 31)" w
  let w := delay 60 w
  let w := vdp2_scrn_back_color_set "RGB1555(0, 0, 0)" w
  dbgio_flush (dbgio_printf "Color Test complete.\n" [] w)

def beep_sample : List Nat :=
  [0x7F, 0x7F, 0x7F, 0x7F, 0x7F, 0x7F, 0x7F, 0x7F,
   0x00, 0x00, 0x00, 0x00, 0x00, 0x00, 0x00, 0x00,
   0x7F, 0x7F, 0x7F, 0x7F, 0x7F, 0x7F, 0x7F, 0x7F,
   0x00, 0x00, 0x00, 0x00, 0x00, 0x00, 0x00, 0x00]

def sound_test.scsp_ram : Nat := 0x25A00000

def sound_test (B : Backing σ) (w : World σ) : World σ :=
  let w := dbgio_flush (dbgio_printf "Running Sound Test...\n" [] w)
  let w := emit (Event.call "scsp_init" []) w
  let w := forLoop (fun i w => poke B 8 (sound_test.scsp_ram + i) (beep_sample.getD i 0) w)
    beep_sample.length 0 w
  let w := emit (Event.call "scsp_ch_init"
    [Arg.num 0, Arg.num 0, Arg.num 0, Arg.num 0, Arg.num (beep_sample.length - 1),
     Arg.sym "SCSP_PCM_8BIT_UNSIGNED", Arg.num 0, Arg.num 0x3F, Arg.num 0x3F,
     Arg.num 0x1000, Arg.num 0]) w
  let w := emit (Event.call "scsp_keyon" [Arg.num 0]) w
  let w := delay 60 w
  let w := emit (Event.call "scsp_keyoff" [Arg.num 0]) w
  dbgio_flush (dbgio_printf "Sound Test Complete.\n" [] w)

/-! ## Controller input

The `PAD_BUTTON_*` masks come from a header that is not part of the sources. -/

/-- Modelled from the spec: the `PAD_BUTTON_*` masks of the controller header,
"a button bitmask (each bit = one logical button)".  Every definition below
takes the masks as a parameter. -/
structure PadMasks where
  PAD_BUTTON_UP : Nat
  PAD_BUTTON_DOWN : Nat
  PAD_BUTTON_A : Nat
  PAD_BUTTON_START : Nat

/-- C truth value of `pad.buttons & mask`. -/
def held (pad : pad_state_t) (mask : Nat) : Bool :=
  pad.buttons &&& mask != 0

/-! ## Program points and machine state -/

/-- Program points at which the machine rests between two steps. -/
inductive Pc
  | menu_poll
  | dispatch
  | controller_poll
  | sprite_poll
  | cpu_poll
  | dismiss_poll
  deriving DecidableEq, Repr

/-- State of `run_menu`: program point, the local `selected`, and the world. -/
structure Machine (σ : Type) where
  pc : Pc
  selected : Int
  w : World σ

/-! ## Interactive tests: entry block and one iteration of the wait loop -/

/-- Entry of `monitor_controller` up to its loop. -/
def monitor_controller.enter (w : World σ) : World σ :=
  pad_port_connect 0 (dbgio_flush (dbgio_printf "Running Controller Test...\n" [] w))

/-- One iteration of the `monitor_controller` loop on sample `pad`:
`true` means the function has returned. -/
def monitor_controller.iter (m : PadMasks) (pad : pad_state_t) (w : World σ) : Bool × World σ :=
  let w := dbgio_clear w
  let w := dbgio_printf "Controller Input:\n" [] w
  let w := dbgio_printf "Buttons: 0x%04x\n" [Arg.num pad.buttons] w
  let w := dbgio_printf "Analog X: %d\n" [Arg.num pad.analog_x] w
  let w := dbgio_printf "Analog Y: %d\n" [Arg.num pad.analog_y] w
  let w := dbgio_printf "\nPress Start to return\n" [] w
  let w := dbgio_flush w
  if held pad m.PAD_BUTTON_START then (true, delay 10 w) else (false, vdp_sync w)

def sprite_bitmap : List Nat := List.replicate (16 * 16) 0x7FFF

def sprite_test.vram : Nat := 0x25C00000

/-- Entry of `sprite_test` up to its loop. -/
def sprite_test.enter (B : Backing σ) (w : World σ) : World σ :=
  let w := dbgio_flush (dbgio_printf "Running Sprite Test...\n" [] w)
  let w := emit (Event.call "vdp1_init" []) w
  let w := forLoop (fun i w => poke B 16 (sprite_test.vram + 2 * i) (sprite_bitmap.getD i 0) w)
    (16 * 16) 0 w
  let w := emit (Event.call "vdp1_cmdt_list_put"
    [Arg.sym "VDP1_CMD_BITMAP", Arg.num 0xFFFF, Arg.num 0, Arg.sym "VDP1_CMD_MODE_NORMAL",
     Arg.sym "VDP1_BITMAP_FORMAT_16", Arg.sym "VDP1_CLUT_MODE_NONE", Arg.num 16, Arg.num 16,
     Arg.num 0, Arg.num 100, Arg.num 100]) w
  let w := emit (Event.call "vdp1_sync" []) w
  let w := dbgio_flush (dbgio_printf "Sprite Test complete.\nPress Start to return.\n" [] w)
  pad_port_connect 0 w

/-- One iteration of the `sprite_test` loop on sample `pad`: `true` means the
function has returned. -/
def sprite_test.iter (m : PadMasks) (pad : pad_state_t) (w : World σ) : Bool × World σ :=
  if held pad m.PAD_BUTTON_START then (true, delay 10 w) else (false, vdp_sync w)

/-- Entry of `cpu_register_dump` up to its loop; the four captured values are
whatever the register file holds. -/
def cpu_register_dump.enter (w : World σ) : World σ :=
  let r0 : Nat := w.regs 0 % 2 ^ 32
  let r1 : Nat := w.regs 1 % 2 ^ 32
  let r2 : Nat := w.regs 2 % 2 ^ 32
  let r3 : Nat := w.regs 3 % 2 ^ 32
  let w := dbgio_printf "CPU Registers:\n" [] w
  let w := dbgio_printf "r0: %08x\n" [Arg.num r0] w
  let w := dbgio_printf "r1: %08x\n" [Arg.num r1] w
  let w := dbgio_printf "r2: %08x\n" [Arg.num r2] w
  let w := dbgio_printf "r3: %08x\n" [Arg.num r3] w
  let w := dbgio_flush w
  let w := dbgio_flush (dbgio_printf "Press Start to return.\n" [] w)
  pad_port_connect 0 w

/-- One iteration of the `cpu_register_dump` loop on sample `pad`: `true` means
the function has returned. -/
def cpu_register_dump.iter (m : PadMasks) (pad : pad_state_t) (w : World σ) :
    Bool × World σ :=
  if held pad m.PAD_BUTTON_START then (true, delay 10 w) else (false, vdp_sync w)

/-! ## Menu -/

def MENU_MEMORY_TEST : Int := 0

def MENU_COLOR_TEST : Int := 1

def MENU_CONTROLLER_TEST : Int := 2

def MENU_SOUND_TEST : Int := 3

def MENU_SPRITE_TEST : Int := 4

def MENU_VRAM_TEST : Int := 5

def MENU_CPU_REG_DUMP : Int := 6

def MENU_COUNT : Int := 7

/-- The conditional chain naming the selected test in "Running %s...". -/
def running_name (selected : Int) : String :=
  if selected = MENU_MEMORY_TEST then "Memory Test"
  else if selected = MENU_COLOR_TEST then "Color Test"
  else if selected = MENU_CONTROLLER_TEST then "Controller Test"
  else if selected = MENU_SOUND_TEST then "Sound Test"
  else if selected = MENU_SPRITE_TEST then "Sprite Test"
  else if selected = MENU_VRAM_TEST then "VRAM Test"
  else if selected = MENU_CPU_REG_DUMP then "CPU Register Dump"
  else "Unknown"

/-- The conditional chain printing line `i` of the menu. -/
def menu_line (i : Int) : String :=
  if i = MENU_MEMORY_TEST then "Memory Test\n"
  else if i = MENU_COLOR_TEST then "Color Test\n"
  else if i = MENU_CONTROLLER_TEST then "Controller Test\n"
  else if i = MENU_SOUND_TEST then "Sound Test\n"
  else if i = MENU_SPRITE_TEST then "Sprite Test\n"
  else if i = MENU_VRAM_TEST then "VRAM Test\n"
  else if i = MENU_CPU_REG_DUMP then "CPU Register Dump\n"
  else "Unknown\n"

/-- Tail of every iteration of the outer loop: redraw the menu, then wait for
the next frame. -/
def draw_menu (selected : Int) (w : World σ) : World σ :=
  let w := dbgio_printf "Saturn POST Menu:\n" [] (dbgio_clear w)
  let w := forLoop (fun i w =>
      let w := if (i : Int) = selected then dbgio_printf "> " [] w else dbgio_printf "  " [] w
      dbgio_printf (menu_line i) [] w)
    MENU_COUNT.toNat 0 w
  vdp_sync (dbgio_flush w)

/-- The selection after Up: `(selected - 1 + MENU_COUNT) % MENU_COUNT` in `int`. -/
def select_up (selected : Int) : Int :=
  Int.tmod (selected - 1 + MENU_COUNT) MENU_COUNT

/-- The selection after Down: `(selected + 1) % MENU_COUNT` in `int`. -/
def select_down (selected : Int) : Int :=
  Int.tmod (selected + 1) MENU_COUNT

/-- After the selected test has returned: the "press to return" prompt, then
the inner wait loop. -/
def dismiss_prompt (st : Machine σ) (w : World σ) : Machine σ :=
  { st with pc := Pc.dismiss_poll,
            w := dbgio_flush (dbgio_printf "Press Start or A to return to menu\n" [] (dbgio_clear w)) }

/-- The `switch (selected)`: calls the test of the matching case label and runs
it until it returns or reaches its first pad poll; no label, no call. -/
def dispatch (B : Backing σ) (st : Machine σ) : Machine σ :=
  if st.selected = MENU_MEMORY_TEST then dismiss_prompt st (memory_test B st.w)
  else if st.selected = MENU_COLOR_TEST then dismiss_prompt st (color_test st.w)
  else if st.selected = MENU_CONTROLLER_TEST then
    { st with pc := Pc.controller_poll, w := monitor_controller.enter st.w }
  else if st.selected = MENU_SOUND_TEST then dismiss_prompt st (sound_test B st.w)
  else if st.selected = MENU_SPRITE_TEST then
    { st with pc := Pc.sprite_poll, w := sprite_test.enter B st.w }
  else if st.selected = MENU_VRAM_TEST then dismiss_prompt st (vram_test B st.w).2
  else if st.selected = MENU_CPU_REG_DUMP then
    { st with pc := Pc.cpu_poll, w := cpu_register_dump.enter st.w }
  else dismiss_prompt st st.w

/-- The head of the outer loop of `run_menu` on sample `pad`. -/
def menu_iter (m : PadMasks) (st : Machine σ) (pad : pad_state_t) (w : World σ) : Machine σ :=
  if held pad m.PAD_BUTTON_UP then
    let sel := select_up st.selected
    { st with selected := sel, w := draw_menu sel (delay 10 w) }
  else if held pad m.PAD_BUTTON_DOWN then
    let sel := select_down st.selected
    { st with selected := sel, w := draw_menu sel (delay 10 w) }
  else if held pad (m.PAD_BUTTON_A ||| m.PAD_BUTTON_START) then
    { st with pc := Pc.dispatch,
              w := dbgio_flush (dbgio_printf "Running %s...\n" [Arg.str (running_name st.selected)]
                (dbgio_clear w)) }
  else
    { st with w := draw_menu st.selected w }

/-- One iteration of the inner wait loop of `run_menu` on sample `pad`. -/
def dismiss_iter (m : PadMasks) (st : Machine σ) (pad : pad_state_t) (w : World σ) : Machine σ :=
  if held pad (m.PAD_BUTTON_START ||| m.PAD_BUTTON_A) then
    { st with pc := Pc.menu_poll, w := draw_menu st.selected (delay 10 w) }
  else
    { st with w := vdp_sync w }

/-- A test's wait loop after one iteration: back in `run_menu` if the test has
returned, still polling otherwise. -/
def test_iter (st : Machine σ) (r : Bool × World σ) : Machine σ :=
  if r.1 then dismiss_prompt st r.2 else { st with w := r.2 }

/-- One step of the program: from a program point to the next one.  A step
that needs a pad sample is blocked (`none`) when the samples are exhausted. -/
def step (m : PadMasks) (B : Backing σ) (st : Machine σ) : Option (Machine σ) :=
  match st.pc with
  | Pc.dispatch => some (dispatch B st)
  | Pc.menu_poll =>
    (pad_port_status_get st.w).map fun r => menu_iter m st r.1 r.2
  | Pc.controller_poll =>
    (pad_port_status_get st.w).map fun r => test_iter st (monitor_controller.iter m r.1 r.2)
  | Pc.sprite_poll =>
    (pad_port_status_get st.w).map fun r => test_iter st (sprite_test.iter m r.1 r.2)
  | Pc.cpu_poll =>
    (pad_port_status_get st.w).map fun r => test_iter st (cpu_register_dump.iter m r.1 r.2)
  | Pc.dismiss_poll =>
    (pad_port_status_get st.w).map fun r => dismiss_iter m st r.1 r.2

/-- Entry of `run_menu` up to its loop. -/
def run_menu.enter (w : World σ) : Machine σ :=
  { pc := Pc.menu_poll, selected := 0, w := pad_port_connect 0 w }

/-- Entry point `main` up to the loop of `run_menu`. -/
def main.enter (w : World σ) : Machine σ :=
  let w := emit (Event.call "dbgio_init" [Arg.sym "DBGIO_DEV_VDP2"]) w
  let w := emit (Event.call "vdp2_init" []) w
  let w := dbgio_clear w
  let w := dbgio_printf "Saturn POST Diagnostic\n" [] w
  let w := dbgio_printf "Use D-Pad to navigate, A/Start to select\n" [] w
  let w := dbgio_flush w
  run_menu.enter w

/-- The program for `n` steps; a blocked machine stays where it is. -/
def run (m : PadMasks) (B : Backing σ) : Nat → Machine σ → Machine σ
  | 0, st => st
  | n + 1, st =>
    match step m B st with
    | none => st
    | some st1 => run m B n st1

/-- Lifecycle phases of the menu controller. -/
inductive Phase
  | Browsing
  | Executing
  | AwaitingDismissal
  deriving DecidableEq, Repr

/-- The phase a program point belongs to: the outer loop head is Browsing, the
`switch` and the inside of a test are Executing, the inner loop is
AwaitingDismissal. -/
def phase (pc : Pc) : Phase :=
  match pc with
  | Pc.menu_poll => Phase.Browsing
  | Pc.dispatch => Phase.Executing
  | Pc.controller_poll => Phase.Executing
  | Pc.sprite_poll => Phase.Executing
  | Pc.cpu_poll => Phase.Executing
  | Pc.dismiss_poll => Phase.AwaitingDismissal

/-! ## Vocabulary of the statements -/

/-- Prepend a block of events (newest first) to the trace. -/
def emitAll (es : List Event) (w : World σ) : World σ :=
  { w with trace := es ++ w.trace }

/-- The loads of elements `lo, lo + 1, ..., lo + n - 1` in that program order
(newest first in the list). -/
def loadEvents (width : Nat) (addr : Nat → Nat) : Nat → Nat → List Event
  | 0, _ => []
  | n + 1, lo => loadEvents width addr n (lo + 1) ++ [Event.load width (addr lo)]

/-- The stores of `pat i` to elements `lo, ..., lo + n - 1` in that program
order (newest first in the list). -/
def storeEvents (width : Nat) (addr pat : Nat → Nat) : Nat → Nat → List Event
  | 0, _ => []
  | n + 1, lo => storeEvents width addr pat n (lo + 1) ++ [Event.store width (addr lo) (pat lo)]

/-- The value `memory_test` reads back at index `i` in its verify phase. -/
def memory_test.readback (B : Backing σ) (w : World σ) (i : Nat) : Nat :=
  B.load (memory_test.written B w).dev 32 (memory_test.addr i) % 2 ^ 32

/-- The value `vram_test` reads back at index `i` in its verify phase. -/
def vram_test.readback (B : Backing σ) (w : World σ) (i : Nat) : Nat :=
  B.load (vram_test.written B w).dev 16 (vram_test.addr i) % 2 ^ 16

/-- The failure report of `memory_test` for element `i`. -/
def memory_test.report (i : Nat) (w : World σ) : World σ :=
  dbgio_flush (dbgio_printf "Memory test FAIL at %08x\n" [Arg.num (memory_test.addr i)] w)

/-- The failure report of `vram_test` for element `i`. -/
def vram_test.report (i : Nat) (w : World σ) : World σ :=
  delay 120 (dbgio_flush (dbgio_printf "VRAM test FAIL at %08x\n" [Arg.num (vram_test.addr i)] w))

/-- The backing is wired as follows over elements `0 .. n - 1` at `addr`:
element `i` is held in cell `c i`, and a load of element `j` from a cell that
holds `v` observes `g j v`. -/
def Wired (B : Backing σ) (width : Nat) (addr : Nat → Nat) (n : Nat)
    (c : Nat → Nat) (g : Nat → Nat → Nat) : Prop :=
  ∀ s i j v, i < n → j < n → v < 2 ^ width →
    B.load (B.store s width (addr i) v) width (addr j) =
      if c j = c i then g j v else B.load s width (addr j)

/-- A fault-free backing over elements `0 .. n - 1` at `addr`: a load returns
the value last stored to the same element, and stores to other elements do not
disturb it. -/
def FaultFree (B : Backing σ) (width : Nat) (addr : Nat → Nat) (n : Nat) : Prop :=
  ∀ s i j v, i < n → j < n → v < 2 ^ width →
    B.load (B.store s width (addr i) v) width (addr j) =
      if j = i then v else B.load s width (addr j)

/-- A simulated backing over a map from cells to values: an access to address
`a` goes to cell `c a`, and a load at `a` of a cell holding `v` observes
`g a v`. -/
def simulated (c : Nat → Nat) (g : Nat → Nat → Nat) : Backing (Nat → Nat) where
  store := fun s _ a v => fun x => if x = c a then v else s x
  load := fun s _ a => g a (s (c a))

/-- The fault-free simulated backing. -/
def ideal : Backing (Nat → Nat) :=
  simulated (fun a => a) (fun _ v => v)

/-- A simulated backing whose loads at address `bad` come back with the lowest
bit flipped. -/
def flipped (bad : Nat) : Backing (Nat → Nat) :=
  simulated (fun a => a) (fun a v => if a = bad then v ^^^ 1 else v)

/-- A simulated backing that ignores bit 16 of the word index of the VRAM
window: words `i` and `i + 0x10000` are the same cell. -/
def aliased : Backing (Nat → Nat) :=
  simulated (fun a => if vram_test.vram + 2 * 0x10000 ≤ a then a - 2 * 0x10000 else a)
    (fun _ v => v)

/-- A world with zeroed memory, an empty trace and the given pad samples. -/
def boot (pads : List pad_state_t) : World (Nat → Nat) :=
  { dev := fun _ => 0, trace := [], pads := pads, regs := fun _ => 0 }

/-- Modelled from the spec: a concrete set of `PAD_BUTTON_*` masks, one distinct
bit per button (the layout of the standard digital pad), for the concrete
runs. -/
def digital_pad : PadMasks :=
  { PAD_BUTTON_UP := 0x1000, PAD_BUTTON_DOWN := 0x2000,
    PAD_BUTTON_A := 0x0400, PAD_BUTTON_START := 0x0800 }

/-- A pad sample with the given buttons and centred axes. -/
def press (buttons : Nat) : pad_state_t :=
  { buttons := buttons, analog_x := 0, analog_y := 0 }

/-! ## Loop lemmas -/

theorem forLoop_succ_last {S : Type} (body : Nat → S → S) (n lo : Nat) (s : S) :
    forLoop body (n + 1) lo s = body (lo + n) (forLoop body n lo s) := by
  induction n generalizing lo s with
  | zero => simp [forLoop]
  | succ n ih =>
    rw [forLoop, ih (lo + 1) (body lo s)]
    simp only [forLoop, Nat.add_assoc, Nat.add_comm 1 n]

/-- The write phase, device and trace apart. -/
theorem forLoop_poke (B : Backing σ) (width : Nat) (addr pat : Nat → Nat) (n lo : Nat)
    (w : World σ) :
    forLoop (fun i w => poke B width (addr i) (pat i) w) n lo w =
      { w with dev := forLoop (fun i s => B.store s width (addr i) (pat i)) n lo w.dev,
               trace := storeEvents width addr pat n lo ++ w.trace } := by
  induction n generalizing lo w with
  | zero => simp [forLoop, storeEvents]
  | succ n ih =>
    rw [forLoop, ih]
    simp [forLoop, storeEvents, poke]

/-- After the write phase over a wired backing whose pattern does not tell
apart two elements of one cell, element `j` reads back as `g j (pat j)`. -/
theorem load_after_write (B : Backing σ) (width : Nat) (addr pat : Nat → Nat) (N : Nat)
    (c : Nat → Nat) (g : Nat → Nat → Nat) (hW : Wired B width addr N c g)
    (hpat : ∀ i, pat i < 2 ^ width)
    (hc : ∀ i j, i < N → j < N → c i = c j → pat i = pat j)
    (n : Nat) (hn : n ≤ N) (s : σ) (j : Nat) (hj : j < N)
    (hex : ∃ i, i < n ∧ c j = c i) :
    B.load (forLoop (fun i s => B.store s width (addr i) (pat i)) n 0 s) width (addr j) =
      g j (pat j) := by
  induction n with
  | zero => obtain ⟨i, hi, _⟩ := hex; omega
  | succ n ih =>
    rw [forLoop_succ_last, Nat.zero_add, hW _ n j _ (by omega) hj (hpat n)]
    split
    · next h => rw [hc n j (by omega) hj h.symm]
    · next h =>
      apply ih (by omega)
      obtain ⟨i, hi, hci⟩ := hex
      refine ⟨i, ?_, hci⟩
      rcases Nat.lt_succ_iff_lt_or_eq.mp hi with h1 | h1
      · exact h1
      · subst h1; exact absurd hci h

theorem mem_loadEvents {width : Nat} {addr : Nat → Nat} {n lo : Nat} {e : Event}
    (h : e ∈ loadEvents width addr n lo) :
    ∃ i, lo ≤ i ∧ i < lo + n ∧ e = Event.load width (addr i) := by
  induction n generalizing lo with
  | zero => simp [loadEvents] at h
  | succ n ih =>
    rw [loadEvents, List.mem_append] at h
    rcases h with h | h
    · obtain ⟨i, h1, h2, h3⟩ := ih h
      exact ⟨i, by omega, by omega, h3⟩
    · exact ⟨lo, le_refl _, by omega, by simpa using h⟩

theorem mem_storeEvents {width : Nat} {addr pat : Nat → Nat} {n lo : Nat} {e : Event}
    (h : e ∈ storeEvents width addr pat n lo) :
    ∃ i, lo ≤ i ∧ i < lo + n ∧ e = Event.store width (addr i) (pat i) := by
  induction n generalizing lo with
  | zero => simp [storeEvents] at h
  | succ n ih =>
    rw [storeEvents, List.mem_append] at h
    rcases h with h | h
    · obtain ⟨i, h1, h2, h3⟩ := ih h
      exact ⟨i, by omega, by omega, h3⟩
    · exact ⟨lo, le_refl _, by omega, by simpa using h⟩

/-- The verify phase when every element reads back as expected: all `n`
elements are loaded and the loop falls through. -/
theorem verify_pass (B : Backing σ) (width : Nat) (addr pat : Nat → Nat)
    (body : Nat → World σ → Bool × World σ) (report : Nat → World σ → World σ)
    (hbody : ∀ i w, body i w =
      if (peek B width (addr i) w).1 ≠ pat i then (true, report i (peek B width (addr i) w).2)
      else (false, (peek B width (addr i) w).2))
    (n lo : Nat) (w : World σ)
    (h : ∀ i, lo ≤ i → i < lo + n → B.load w.dev width (addr i) % 2 ^ width = pat i) :
    forLoopRet body n lo w = (false, emitAll (loadEvents width addr n lo) w) := by
  induction n generalizing lo w with
  | zero => simp [forLoopRet, loadEvents, emitAll]
  | succ n ih =>
    have h0 : (peek B width (addr lo) w).1 = pat lo := h lo (le_refl _) (by omega)
    have hb : body lo w = (false, (peek B width (addr lo) w).2) := by
      rw [hbody]; simp [h0]
    rw [forLoopRet, hb]
    simp only
    rw [ih (lo + 1) _ (fun i h1 h2 => by
      have := h i (by omega) (by omega)
      simpa [peek, emit] using this)]
    simp [peek, emit, emitAll, loadEvents]

/-- The verify phase when `k` is the first element that reads back wrong: the
elements up to `k` are loaded, the failure is reported for `k`, and the
enclosing function returns. -/
theorem verify_fail (B : Backing σ) (width : Nat) (addr pat : Nat → Nat)
    (body : Nat → World σ → Bool × World σ) (report : Nat → World σ → World σ)
    (hbody : ∀ i w, body i w =
      if (peek B width (addr i) w).1 ≠ pat i then (true, report i (peek B width (addr i) w).2)
      else (false, (peek B width (addr i) w).2))
    (n lo : Nat) (w : World σ) (k : Nat) (hlo : lo ≤ k) (hk : k < lo + n)
    (hpre : ∀ i, lo ≤ i → i < k → B.load w.dev width (addr i) % 2 ^ width = pat i)
    (hbad : B.load w.dev width (addr k) % 2 ^ width ≠ pat k) :
    forLoopRet body n lo w =
      (true, report k (emitAll (loadEvents width addr (k + 1 - lo) lo) w)) := by
  induction n generalizing lo w with
  | zero => omega
  | succ n ih =>
    rcases Nat.eq_or_lt_of_le hlo with heq | hlt
    · subst heq
      have h0 : (peek B width (addr lo) w).1 ≠ pat lo := hbad
      have hb : body lo w = (true, report lo (peek B width (addr lo) w).2) := by
        rw [hbody]; simp [h0]
      rw [forLoopRet, hb]
      have h1 : lo + 1 - lo = 1 := by omega
      simp [h1, peek, emit, emitAll, loadEvents]
    · have h0 : (peek B width (addr lo) w).1 = pat lo := hpre lo (le_refl _) hlt
      have hb : body lo w = (false, (peek B width (addr lo) w).2) := by
        rw [hbody]; simp [h0]
      rw [forLoopRet, hb]
      simp only
      rw [ih (lo + 1) _ (by omega) (by omega)
        (fun i h1 h2 => by
          have := hpre i (by omega) h2
          simpa [peek, emit] using this)
        (by simpa [peek, emit] using hbad)]
      have h1 : k + 1 - lo = (k + 1 - (lo + 1)) + 1 := by omega
      rw [h1]
      simp [peek, emit, emitAll, loadEvents]

theorem printf_not_mem_loadEvents (fmt : String) (args : List Arg) (width : Nat)
    (addr : Nat → Nat) (n lo : Nat) :
    Event.printf fmt args ∉ loadEvents width addr n lo := by
  intro h
  obtain ⟨i, _, _, h3⟩ := mem_loadEvents h
  cases h3

theorem printf_not_mem_storeEvents (fmt : String) (args : List Arg) (width : Nat)
    (addr pat : Nat → Nat) (n lo : Nat) :
    Event.printf fmt args ∉ storeEvents width addr pat n lo := by
  intro h
  obtain ⟨i, _, _, h3⟩ := mem_storeEvents h
  cases h3

theorem load_not_mem_storeEvents (wd a : Nat) (width : Nat)
    (addr pat : Nat → Nat) (n lo : Nat) :
    Event.load wd a ∉ storeEvents width addr pat n lo := by
  intro h
  obtain ⟨i, _, _, h3⟩ := mem_storeEvents h
  cases h3

/-! ## Trace of the collaborator calls -/

theorem trace_emitAll (es : List Event) (w : World σ) :
    (emitAll es w).trace = es ++ w.trace := rfl

theorem trace_printf (fmt : String) (args : List Arg) (w : World σ) :
    (dbgio_printf fmt args w).trace = Event.printf fmt args :: w.trace := rfl

theorem trace_flush (w : World σ) :
    (dbgio_flush w).trace = Event.call "dbgio_flush" [] :: w.trace := rfl

theorem trace_delay (n : Int) (w : World σ) :
    (delay n w).trace = Event.call "delay" [Arg.num n] :: w.trace := rfl

/-! ## The two pattern tests, phase by phase -/

theorem memory_test_written_eq (B : Backing σ) (w : World σ) :
    memory_test.written B w =
      { w with
        dev := forLoop (fun i s => B.store s 32 (memory_test.addr i) (memory_test.pattern i))
          memory_test.test_len 0 w.dev,
        trace := storeEvents 32 memory_test.addr memory_test.pattern memory_test.test_len 0 ++
          (Event.call "dbgio_flush" [] :: Event.printf "Running Memory Test...\n" [] :: w.trace) } := by
  unfold memory_test.written
  have h : memory_test.write B =
      fun i w => poke B 32 (memory_test.addr i) (memory_test.pattern i) w := rfl
  rw [h, forLoop_poke]
  simp [dbgio_flush, dbgio_printf, emit]

theorem vram_test_written_eq (B : Backing σ) (w : World σ) :
    vram_test.written B w =
      { w with
        dev := forLoop (fun i s => B.store s 16 (vram_test.addr i) (vram_test.pattern i))
          vram_test.size_words 0 w.dev,
        trace := storeEvents 16 vram_test.addr vram_test.pattern vram_test.size_words 0 ++
          (Event.call "dbgio_flush" [] :: Event.printf "Running VRAM Test...\n" [] :: w.trace) } := by
  unfold vram_test.written
  have h : vram_test.write B =
      fun i w => poke B 16 (vram_test.addr i) (vram_test.pattern i) w := rfl
  rw [h, forLoop_poke]
  simp [dbgio_flush, dbgio_printf, emit]

theorem memory_test_written_trace (B : Backing σ) (w : World σ) :
    (memory_test.written B w).trace =
      storeEvents 32 memory_test.addr memory_test.pattern memory_test.test_len 0 ++
        (Event.call "dbgio_flush" [] :: Event.printf "Running Memory Test...\n" [] :: w.trace) := by
  rw [memory_test_written_eq]

theorem vram_test_written_trace (B : Backing σ) (w : World σ) :
    (vram_test.written B w).trace =
      storeEvents 16 vram_test.addr vram_test.pattern vram_test.size_words 0 ++
        (Event.call "dbgio_flush" [] :: Event.printf "Running VRAM Test...\n" [] :: w.trace) := by
  rw [vram_test_written_eq]

theorem memory_test_verify_eq (B : Backing σ) (i : Nat) (w : World σ) :
    memory_test.verify B i w =
      if (peek B 32 (memory_test.addr i) w).1 ≠ memory_test.pattern i then
        (true, memory_test.report i (peek B 32 (memory_test.addr i) w).2)
      else (false, (peek B 32 (memory_test.addr i) w).2) := rfl

theorem vram_test_verify_eq (B : Backing σ) (i : Nat) (w : World σ) :
    vram_test.verify B i w =
      if (peek B 16 (vram_test.addr i) w).1 ≠ vram_test.pattern i then
        (true, vram_test.report i (peek B 16 (vram_test.addr i) w).2)
      else (false, (peek B 16 (vram_test.addr i) w).2) := rfl

/-- The whole of `memory_test` when `k` is the first element that reads back wrong. -/
theorem memory_test_eq_fail (B : Backing σ) (w : World σ) (k : Nat)
    (hk : k < memory_test.test_len)
    (hpre : ∀ i, i < k → memory_test.readback B w i = memory_test.pattern i)
    (hbad : memory_test.readback B w k ≠ memory_test.pattern k) :
    memory_test B w =
      memory_test.report k
        (emitAll (loadEvents 32 memory_test.addr (k + 1) 0) (memory_test.written B w)) := by
  have h := verify_fail B 32 memory_test.addr memory_test.pattern (memory_test.verify B)
    memory_test.report (memory_test_verify_eq B) memory_test.test_len 0 (memory_test.written B w) k
    (Nat.zero_le _) (by omega) (fun i _ h2 => hpre i h2) hbad
  rw [memory_test, h]
  rfl

/-- The whole of `memory_test` when every element reads back as expected. -/
theorem memory_test_eq_pass (B : Backing σ) (w : World σ)
    (hall : ∀ i, i < memory_test.test_len →
      memory_test.readback B w i = memory_test.pattern i) :
    memory_test B w =
      delay 120 (dbgio_flush (dbgio_printf "Memory test PASS\n" []
        (emitAll (loadEvents 32 memory_test.addr memory_test.test_len 0)
          (memory_test.written B w)))) := by
  have h := verify_pass B 32 memory_test.addr memory_test.pattern (memory_test.verify B)
    memory_test.report (memory_test_verify_eq B) memory_test.test_len 0 (memory_test.written B w)
    (fun i _ h2 => hall i (by omega))
  rw [memory_test, h]
  rfl

/-- The whole of `vram_test` when `k` is the first element that reads back wrong. -/
theorem vram_test_eq_fail (B : Backing σ) (w : World σ) (k : Nat)
    (hk : k < vram_test.size_words)
    (hpre : ∀ i, i < k → vram_test.readback B w i = vram_test.pattern i)
    (hbad : vram_test.readback B w k ≠ vram_test.pattern k) :
    vram_test B w =
      (false, vram_test.report k
        (emitAll (loadEvents 16 vram_test.addr (k + 1) 0) (vram_test.written B w))) := by
  have h := verify_fail B 16 vram_test.addr vram_test.pattern (vram_test.verify B)
    vram_test.report (vram_test_verify_eq B) vram_test.size_words 0 (vram_test.written B w) k
    (Nat.zero_le _) (by omega) (fun i _ h2 => hpre i h2) hbad
  rw [vram_test, h]
  rfl

/-- The whole of `vram_test` when every element reads back as expected. -/
theorem vram_test_eq_pass (B : Backing σ) (w : World σ)
    (hall : ∀ i, i < vram_test.size_words → vram_test.readback B w i = vram_test.pattern i) :
    vram_test B w =
      (true, delay 120 (dbgio_flush (dbgio_printf "VRAM test PASS\n" []
        (emitAll (loadEvents 16 vram_test.addr vram_test.size_words 0)
          (vram_test.written B w))))) := by
  have h := verify_pass B 16 vram_test.addr vram_test.pattern (vram_test.verify B)
    vram_test.report (vram_test_verify_eq B) vram_test.size_words 0 (vram_test.written B w)
    (fun i _ h2 => hall i (by omega))
  rw [vram_test, h]
  rfl

/-! ## The patterns -/

theorem vram_test_pattern_eq (i : Nat) :
    vram_test.pattern i = (i % 2 ^ 16) ^^^ 0xAAAA := by
  unfold vram_test.pattern
  rw [Nat.mod_mod_of_dvd _ (by norm_num : 2 ^ 16 ∣ 2 ^ 32)]
  apply Nat.eq_of_testBit_eq
  intro b
  rw [Nat.testBit_mod_two_pow, Nat.testBit_xor, Nat.testBit_xor, Nat.testBit_mod_two_pow]
  by_cases hb : b < 16
  · simp [hb]
  · have h1 : Nat.testBit 0xAAAA b = false := by
      apply Nat.testBit_lt_two_pow
      calc 0xAAAA < 2 ^ 16 := by norm_num
        _ ≤ 2 ^ b := Nat.pow_le_pow_right (by norm_num) (by omega)
    simp [hb, h1]

theorem vram_test_pattern_lt (i : Nat) : vram_test.pattern i < 2 ^ 16 := by
  unfold vram_test.pattern
  exact Nat.mod_lt _ (by norm_num)

theorem vram_test_pattern_eq_iff (i j : Nat) :
    vram_test.pattern i = vram_test.pattern j ↔ i % 2 ^ 16 = j % 2 ^ 16 := by
  rw [vram_test_pattern_eq, vram_test_pattern_eq]
  exact Nat.xor_left_inj

theorem memory_test_pattern_eq (i : Nat) (hi : i < 2 ^ 32) :
    memory_test.pattern i = i ^^^ 0xAAAAAAAA := by
  unfold memory_test.pattern
  exact Nat.mod_eq_of_lt (Nat.xor_lt_two_pow hi (by norm_num))

theorem memory_test_pattern_lt (i : Nat) : memory_test.pattern i < 2 ^ 32 := by
  unfold memory_test.pattern
  exact Nat.mod_lt _ (by norm_num)

/-! ## Read-back over wired backings -/

theorem memory_test_readback_wired (B : Backing σ) (w : World σ)
    (c : Nat → Nat) (g : Nat → Nat → Nat)
    (hW : Wired B 32 memory_test.addr memory_test.test_len c g)
    (hc : ∀ i j, i < memory_test.test_len → j < memory_test.test_len → c i = c j →
      memory_test.pattern i = memory_test.pattern j)
    (j : Nat) (hj : j < memory_test.test_len) :
    memory_test.readback B w j = g j (memory_test.pattern j) % 2 ^ 32 := by
  unfold memory_test.readback
  rw [memory_test_written_eq]
  simp only
  rw [load_after_write B 32 memory_test.addr memory_test.pattern memory_test.test_len c g hW
    memory_test_pattern_lt hc memory_test.test_len (le_refl _) _ j hj ⟨j, hj, rfl⟩]

theorem vram_test_readback_wired (B : Backing σ) (w : World σ)
    (c : Nat → Nat) (g : Nat → Nat → Nat)
    (hW : Wired B 16 vram_test.addr vram_test.size_words c g)
    (hc : ∀ i j, i < vram_test.size_words → j < vram_test.size_words → c i = c j →
      vram_test.pattern i = vram_test.pattern j)
    (j : Nat) (hj : j < vram_test.size_words) :
    vram_test.readback B w j = g j (vram_test.pattern j) % 2 ^ 16 := by
  unfold vram_test.readback
  rw [vram_test_written_eq]
  simp only
  rw [load_after_write B 16 vram_test.addr vram_test.pattern vram_test.size_words c g hW
    vram_test_pattern_lt hc vram_test.size_words (le_refl _) _ j hj ⟨j, hj, rfl⟩]

theorem simulated_wired (c : Nat → Nat) (g : Nat → Nat → Nat) (width : Nat)
    (addr : Nat → Nat) (n : Nat) :
    Wired (simulated c g) width addr n (fun i => c (addr i)) (fun j v => g (addr j) v) := by
  intro s i j v _ _ _
  simp only [simulated]
  split <;> rfl

theorem FaultFree.wired {B : Backing σ} {width : Nat} {addr : Nat → Nat} {n : Nat}
    (h : FaultFree B width addr n) :
    Wired B width addr n (fun i => i) (fun _ v => v) := h

theorem ideal_faultFree (width : Nat) (addr : Nat → Nat) (n : Nat)
    (hinj : ∀ i j, addr i = addr j → i = j) :
    FaultFree ideal width addr n := by
  intro s i j v _ _ _
  simp only [ideal, simulated]
  by_cases h : j = i
  · subst h; simp
  · have h1 : addr j ≠ addr i := fun e => h (hinj _ _ e)
    simp [h, h1]

theorem memory_test_addr_inj (i j : Nat) (h : memory_test.addr i = memory_test.addr j) :
    i = j := by
  unfold memory_test.addr at h; omega

theorem vram_test_addr_inj (i j : Nat) (h : vram_test.addr i = vram_test.addr j) :
    i = j := by
  unfold vram_test.addr at h; omega

theorem memory_test_readback_flipped (bad : Nat) (w : World (Nat → Nat)) (j : Nat)
    (hj : j < memory_test.test_len) :
    memory_test.readback (flipped bad) w j =
      if memory_test.addr j = bad then (memory_test.pattern j ^^^ 1) % 2 ^ 32
      else memory_test.pattern j := by
  rw [memory_test_readback_wired (flipped bad) w _ _ (simulated_wired _ _ 32 _ _)
    (fun a b _ _ h => by rw [memory_test_addr_inj a b h]) j hj]
  split
  · rfl
  · exact Nat.mod_eq_of_lt (memory_test_pattern_lt j)

theorem vram_test_readback_flipped (bad : Nat) (w : World (Nat → Nat)) (j : Nat)
    (hj : j < vram_test.size_words) :
    vram_test.readback (flipped bad) w j =
      if vram_test.addr j = bad then (vram_test.pattern j ^^^ 1) % 2 ^ 16
      else vram_test.pattern j := by
  rw [vram_test_readback_wired (flipped bad) w _ _ (simulated_wired _ _ 16 _ _)
    (fun a b _ _ h => by rw [vram_test_addr_inj a b h]) j hj]
  split
  · rfl
  · exact Nat.mod_eq_of_lt (vram_test_pattern_lt j)

/-! ## Shape of the trace of a pattern test

Stated over arbitrary blocks `L` (the loads) and `S` (the stores). -/

theorem pass_frame (T t L S : List Event) (banner passmsg failmsg : String)
    (hT : T = Event.call "delay" [Arg.num 120] :: Event.call "dbgio_flush" [] ::
      Event.printf passmsg [] ::
      (L ++ (S ++ (Event.call "dbgio_flush" [] :: Event.printf banner [] :: t))))
    (hL : ∀ fmt args, Event.printf fmt args ∉ L)
    (hS : ∀ fmt args, Event.printf fmt args ∉ S)
    (h1 : failmsg ≠ passmsg) (h2 : failmsg ≠ banner) :
    ∃ new, T = new ++ t ∧ Event.printf passmsg [] ∈ new ∧
      ∀ args, Event.printf failmsg args ∉ new := by
  refine ⟨Event.call "delay" [Arg.num 120] :: Event.call "dbgio_flush" [] ::
    Event.printf passmsg [] ::
    (L ++ (S ++ [Event.call "dbgio_flush" [], Event.printf banner []])), ?_, ?_, ?_⟩
  · rw [hT]; simp
  · simp
  · intro args
    simp [hL, hS, h1, h2]

theorem fail_frame (pre T t L S : List Event) (banner passmsg failmsg : String)
    (fargs : List Arg)
    (hT : T = pre ++ (Event.call "dbgio_flush" [] :: Event.printf failmsg fargs ::
      (L ++ (S ++ (Event.call "dbgio_flush" [] :: Event.printf banner [] :: t)))))
    (hpre : ∀ e, e ∈ pre → ∃ fn args, e = Event.call fn args)
    (hL : ∀ fmt args, Event.printf fmt args ∉ L)
    (hS : ∀ fmt args, Event.printf fmt args ∉ S)
    (hS2 : ∀ wd a, Event.load wd a ∉ S)
    (h1 : passmsg ≠ failmsg) (h2 : passmsg ≠ banner) :
    ∃ new, T = new ++ t ∧ Event.printf failmsg fargs ∈ new ∧
      Event.printf passmsg [] ∉ new ∧
      ∀ wd a, Event.load wd a ∈ new → Event.load wd a ∈ L := by
  refine ⟨pre ++ (Event.call "dbgio_flush" [] :: Event.printf failmsg fargs ::
    (L ++ (S ++ [Event.call "dbgio_flush" [], Event.printf banner []]))), ?_, ?_, ?_, ?_⟩
  · rw [hT]; simp
  · simp
  · intro h
    rw [List.mem_append] at h
    rcases h with h | h
    · obtain ⟨fn, args, he⟩ := hpre _ h
      cases he
    · simp [hL, hS, h1, h2] at h
  · intro wd a h
    rw [List.mem_append] at h
    rcases h with h | h
    · obtain ⟨fn, args, he⟩ := hpre _ h
      cases he
    · simpa [hS2] using h

/-- The exact trace of a passing `memory_test`. -/
theorem memory_test_trace_pass (B : Backing σ) (w : World σ)
    (hall : ∀ i, i < memory_test.test_len →
      memory_test.readback B w i = memory_test.pattern i) :
    (memory_test B w).trace =
      Event.call "delay" [Arg.num 120] :: Event.call "dbgio_flush" [] ::
      Event.printf "Memory test PASS\n" [] ::
      (loadEvents 32 memory_test.addr memory_test.test_len 0 ++
        (storeEvents 32 memory_test.addr memory_test.pattern memory_test.test_len 0 ++
          (Event.call "dbgio_flush" [] :: Event.printf "Running Memory Test...\n" [] ::
            w.trace))) := by
  rw [memory_test_eq_pass B w hall, trace_delay, trace_flush, trace_printf, trace_emitAll,
    memory_test_written_trace]

/-- The exact trace of a `memory_test` whose first bad element is `k`. -/
theorem memory_test_trace_fail (B : Backing σ) (w : World σ) (k : Nat)
    (hk : k < memory_test.test_len)
    (hpre : ∀ i, i < k → memory_test.readback B w i = memory_test.pattern i)
    (hbad : memory_test.readback B w k ≠ memory_test.pattern k) :
    (memory_test B w).trace =
      Event.call "dbgio_flush" [] ::
      Event.printf "Memory test FAIL at %08x\n" [Arg.num (memory_test.addr k)] ::
      (loadEvents 32 memory_test.addr (k + 1) 0 ++
        (storeEvents 32 memory_test.addr memory_test.pattern memory_test.test_len 0 ++
          (Event.call "dbgio_flush" [] :: Event.printf "Running Memory Test...\n" [] ::
            w.trace))) := by
  rw [memory_test_eq_fail B w k hk hpre hbad, memory_test.report, trace_flush,
    trace_printf, trace_emitAll, memory_test_written_trace]

/-- The exact trace of a passing `vram_test`. -/
theorem vram_test_trace_pass (B : Backing σ) (w : World σ)
    (hall : ∀ i, i < vram_test.size_words → vram_test.readback B w i = vram_test.pattern i) :
    (vram_test B w).2.trace =
      Event.call "delay" [Arg.num 120] :: Event.call "dbgio_flush" [] ::
      Event.printf "VRAM test PASS\n" [] ::
      (loadEvents 16 vram_test.addr vram_test.size_words 0 ++
        (storeEvents 16 vram_test.addr vram_test.pattern vram_test.size_words 0 ++
          (Event.call "dbgio_flush" [] :: Event.printf "Running VRAM Test...\n" [] ::
            w.trace))) := by
  rw [vram_test_eq_pass B w hall, trace_delay, trace_flush, trace_printf, trace_emitAll,
    vram_test_written_trace]

/-- The exact trace of a `vram_test` whose first bad element is `k`. -/
theorem vram_test_trace_fail (B : Backing σ) (w : World σ) (k : Nat)
    (hk : k < vram_test.size_words)
    (hpre : ∀ i, i < k → vram_test.readback B w i = vram_test.pattern i)
    (hbad : vram_test.readback B w k ≠ vram_test.pattern k) :
    (vram_test B w).2.trace =
      Event.call "delay" [Arg.num 120] :: Event.call "dbgio_flush" [] ::
      Event.printf "VRAM test FAIL at %08x\n" [Arg.num (vram_test.addr k)] ::
      (loadEvents 16 vram_test.addr (k + 1) 0 ++
        (storeEvents 16 vram_test.addr vram_test.pattern vram_test.size_words 0 ++
          (Event.call "dbgio_flush" [] :: Event.printf "Running VRAM Test...\n" [] ::
            w.trace))) := by
  rw [vram_test_eq_fail B w k hk hpre hbad, vram_test.report, trace_delay, trace_flush,
    trace_printf, trace_emitAll, vram_test_written_trace]

/-- What `memory_test` reports when every element reads back as expected. -/
theorem memory_test_pass_report (B : Backing σ) (w : World σ)
    (hall : ∀ i, i < memory_test.test_len →
      memory_test.readback B w i = memory_test.pattern i) :
    ∃ new, (memory_test B w).trace = new ++ w.trace ∧
      Event.printf "Memory test PASS\n" [] ∈ new ∧
      ∀ args, Event.printf "Memory test FAIL at %08x\n" args ∉ new := by
  have hT := memory_test_trace_pass B w hall
  exact pass_frame _ _ _ _ _ _ _ hT
    (fun fmt args => printf_not_mem_loadEvents fmt args 32 memory_test.addr memory_test.test_len 0)
    (fun fmt args => printf_not_mem_storeEvents fmt args 32 memory_test.addr memory_test.pattern memory_test.test_len 0)
    (by decide) (by decide)

/-- What `vram_test` reports and returns when every element reads back as
expected. -/
theorem vram_test_pass_report (B : Backing σ) (w : World σ)
    (hall : ∀ i, i < vram_test.size_words → vram_test.readback B w i = vram_test.pattern i) :
    (vram_test B w).1 = true ∧
    ∃ new, (vram_test B w).2.trace = new ++ w.trace ∧
      Event.printf "VRAM test PASS\n" [] ∈ new ∧
      ∀ args, Event.printf "VRAM test FAIL at %08x\n" args ∉ new := by
  have hT := vram_test_trace_pass B w hall
  exact ⟨by rw [vram_test_eq_pass B w hall], pass_frame _ _ _ _ _ _ _ hT
    (fun fmt args => printf_not_mem_loadEvents fmt args 16 vram_test.addr vram_test.size_words 0)
    (fun fmt args => printf_not_mem_storeEvents fmt args 16 vram_test.addr vram_test.pattern vram_test.size_words 0)
    (by decide) (by decide)⟩

theorem memory_test_readback_faultFree (B : Backing σ) (w : World σ)
    (h : FaultFree B 32 memory_test.addr 0x1000) (i : Nat) (hi : i < memory_test.test_len) :
    memory_test.readback B w i = memory_test.pattern i := by
  rw [memory_test_readback_wired B w _ _ (by unfold memory_test.test_len; exact h.wired)
    (fun a b _ _ e => by rw [show a = b from e]) i hi]
  exact Nat.mod_eq_of_lt (memory_test_pattern_lt i)

theorem vram_test_readback_faultFree (B : Backing σ) (w : World σ)
    (h : FaultFree B 16 vram_test.addr 0x20000) (i : Nat) (hi : i < vram_test.size_words) :
    vram_test.readback B w i = vram_test.pattern i := by
  rw [vram_test_readback_wired B w _ _ (by unfold vram_test.size_words; exact h.wired)
    (fun a b _ _ e => by rw [show a = b from e]) i hi]
  exact Nat.mod_eq_of_lt (vram_test_pattern_lt i)

theorem vram_test_readback_aliased (w : World (Nat → Nat)) (i : Nat)
    (hi : i < vram_test.size_words) :
    vram_test.readback aliased w i = vram_test.pattern i := by
  rw [vram_test_readback_wired aliased w _ _ (simulated_wired _ _ 16 _ _)
    (fun a b ha hb e => by
      unfold vram_test.size_words at ha hb
      rw [vram_test_pattern_eq_iff]
      simp only [vram_test.addr, vram_test.vram] at e
      split at e <;> split at e <;> omega) i hi]
  exact Nat.mod_eq_of_lt (vram_test_pattern_lt i)

/-! ## Claims about the pattern tests -/

/-- C1. Fail-fast: in `memory_test` (0x1000 words of 32 bits at 0x20000000) and
in `vram_test` (0x20000 words of 16 bits at 0x25C00000), when `k` is the first
index whose read-back value differs from the pattern, the events the test adds
to the trace contain the FAIL report with the address of element `k`, contain
no PASS report, and contain loads of elements `0 .. k` only; `vram_test`
returns `false`. -/
theorem fail_fast (B : Backing σ) (w : World σ) :
    (∀ k, k < 0x1000 →
      (∀ i, i < k → memory_test.readback B w i = memory_test.pattern i) →
      memory_test.readback B w k ≠ memory_test.pattern k →
      ∃ new, (memory_test B w).trace = new ++ w.trace ∧
        Event.printf "Memory test FAIL at %08x\n" [Arg.num ((0x20000000 + 4 * k : Nat) : Int)] ∈ new ∧
        Event.printf "Memory test PASS\n" [] ∉ new ∧
        ∀ wd a, Event.load wd a ∈ new → wd = 32 ∧ ∃ i, i ≤ k ∧ a = 0x20000000 + 4 * i) ∧
    (∀ k, k < 0x20000 →
      (∀ i, i < k → vram_test.readback B w i = vram_test.pattern i) →
      vram_test.readback B w k ≠ vram_test.pattern k →
      (vram_test B w).1 = false ∧
      ∃ new, (vram_test B w).2.trace = new ++ w.trace ∧
        Event.printf "VRAM test FAIL at %08x\n" [Arg.num ((0x25C00000 + 2 * k : Nat) : Int)] ∈ new ∧
        Event.printf "VRAM test PASS\n" [] ∉ new ∧
        ∀ wd a, Event.load wd a ∈ new → wd = 16 ∧ ∃ i, i ≤ k ∧ a = 0x25C00000 + 2 * i) := by
  constructor
  · intro k hk hpre hbad
    have hk1 : k < memory_test.test_len := by unfold memory_test.test_len; exact hk
    have hT := memory_test_trace_fail B w k hk1 hpre hbad
    rw [← List.nil_append (Event.call "dbgio_flush" [] :: _)] at hT
    obtain ⟨new, h1, h2, h3, h4⟩ := fail_frame _ _ _ _ _ _ "Memory test PASS\n" _ _ hT
      (fun e he => absurd he (List.not_mem_nil e))
      (fun fmt args => printf_not_mem_loadEvents fmt args 32 memory_test.addr (k + 1) 0)
      (fun fmt args => printf_not_mem_storeEvents fmt args 32 memory_test.addr
        memory_test.pattern memory_test.test_len 0)
      (fun wd a => load_not_mem_storeEvents wd a 32 memory_test.addr
        memory_test.pattern memory_test.test_len 0)
      (by decide) (by decide)
    refine ⟨new, h1, h2, h3, fun wd a h => ?_⟩
    obtain ⟨i, _, h5, h6⟩ := mem_loadEvents (h4 wd a h)
    cases h6
    exact ⟨rfl, i, by omega, rfl⟩
  · intro k hk hpre hbad
    have hk1 : k < vram_test.size_words := by unfold vram_test.size_words; exact hk
    have hT := vram_test_trace_fail B w k hk1 hpre hbad
    rw [← List.singleton_append] at hT
    obtain ⟨new, h1, h2, h3, h4⟩ := fail_frame _ _ _ _ _ _ "VRAM test PASS\n" _ _ hT
      (fun e he => ⟨_, _, List.mem_singleton.mp he⟩)
      (fun fmt args => printf_not_mem_loadEvents fmt args 16 vram_test.addr (k + 1) 0)
      (fun fmt args => printf_not_mem_storeEvents fmt args 16 vram_test.addr
        vram_test.pattern vram_test.size_words 0)
      (fun wd a => load_not_mem_storeEvents wd a 16 vram_test.addr
        vram_test.pattern vram_test.size_words 0)
      (by decide) (by decide)
    refine ⟨by rw [vram_test_eq_fail B w k hk1 hpre hbad], new, h1, h2, h3, fun wd a h => ?_⟩
    obtain ⟨i, _, h5, h6⟩ := mem_loadEvents (h4 wd a h)
    cases h6
    exact ⟨rfl, i, by omega, rfl⟩

/-- Witness of C1: with the loads of word 5 of the RAM window (address
0x20000014) corrupted, `memory_test` reports FAIL at 0x20000014; with the loads
of VRAM word 0x1000 (address 0x25C02000) corrupted and nothing else,
`vram_test` reports FAIL at 0x25C02000, no PASS, loads no word beyond 0x1000,
and returns `false`. -/
theorem fail_fast_witness :
    (∃ new, (memory_test (flipped 0x20000014) (boot [])).trace = new ++ [] ∧
      Event.printf "Memory test FAIL at %08x\n" [Arg.num 0x20000014] ∈ new ∧
      Event.printf "Memory test PASS\n" [] ∉ new ∧
      ∀ wd a, Event.load wd a ∈ new → wd = 32 ∧ ∃ i, i ≤ 5 ∧ a = 0x20000000 + 4 * i) ∧
    ((vram_test (flipped 0x25C02000) (boot [])).1 = false ∧
      ∃ new, (vram_test (flipped 0x25C02000) (boot [])).2.trace = new ++ [] ∧
        Event.printf "VRAM test FAIL at %08x\n" [Arg.num 0x25C02000] ∈ new ∧
        Event.printf "VRAM test PASS\n" [] ∉ new ∧
        ∀ wd a, Event.load wd a ∈ new → wd = 16 ∧ ∃ i, i ≤ 0x1000 ∧ a = 0x25C00000 + 2 * i) := by
  constructor
  · exact (fail_fast (flipped 0x20000014) (boot [])).1 5 (by norm_num)
      (fun i hi => by
        rw [memory_test_readback_flipped _ _ _ (by unfold memory_test.test_len; omega),
          if_neg (by unfold memory_test.addr memory_test.ram; omega)])
      (by
        rw [memory_test_readback_flipped _ _ _ (by unfold memory_test.test_len; omega),
          if_pos (by decide)]
        decide)
  · exact (fail_fast (flipped 0x25C02000) (boot [])).2 0x1000 (by norm_num)
      (fun i hi => by
        rw [vram_test_readback_flipped _ _ _ (by unfold vram_test.size_words; omega),
          if_neg (by unfold vram_test.addr vram_test.vram; omega)])
      (by
        rw [vram_test_readback_flipped _ _ _ (by unfold vram_test.size_words; omega),
          if_pos (by decide)]
        decide)

/-- C2. Round trip: over a backing that is fault-free on the RAM window and on
the VRAM window, every index reads back as its pattern after the write phase;
`memory_test` reports PASS and no FAIL, `vram_test` reports PASS and no FAIL
and returns `true`. -/
theorem round_trip (B : Backing σ) (w : World σ)
    (hm : FaultFree B 32 memory_test.addr 0x1000)
    (hv : FaultFree B 16 vram_test.addr 0x20000) :
    (∀ i, i < 0x1000 → memory_test.readback B w i = memory_test.pattern i) ∧
    (∃ new, (memory_test B w).trace = new ++ w.trace ∧
      Event.printf "Memory test PASS\n" [] ∈ new ∧
      ∀ args, Event.printf "Memory test FAIL at %08x\n" args ∉ new) ∧
    (∀ i, i < 0x20000 → vram_test.readback B w i = vram_test.pattern i) ∧
    (vram_test B w).1 = true ∧
    (∃ new, (vram_test B w).2.trace = new ++ w.trace ∧
      Event.printf "VRAM test PASS\n" [] ∈ new ∧
      ∀ args, Event.printf "VRAM test FAIL at %08x\n" args ∉ new) := by
  refine ⟨fun i hi => memory_test_readback_faultFree B w hm i
      (by unfold memory_test.test_len; exact hi),
    memory_test_pass_report B w (memory_test_readback_faultFree B w hm),
    fun i hi => vram_test_readback_faultFree B w hv i
      (by unfold vram_test.size_words; exact hi),
    vram_test_pass_report B w (vram_test_readback_faultFree B w hv)⟩

/-- Witness of C2: the ideal simulated memory is fault-free on both windows,
so both tests pass on it. -/
theorem round_trip_witness :
    FaultFree ideal 32 memory_test.addr 0x1000 ∧
    FaultFree ideal 16 vram_test.addr 0x20000 ∧
    (∃ new, (memory_test ideal (boot [])).trace = new ++ [] ∧
      Event.printf "Memory test PASS\n" [] ∈ new ∧
      ∀ args, Event.printf "Memory test FAIL at %08x\n" args ∉ new) ∧
    (vram_test ideal (boot [])).1 = true ∧
    (∃ new, (vram_test ideal (boot [])).2.trace = new ++ [] ∧
      Event.printf "VRAM test PASS\n" [] ∈ new ∧
      ∀ args, Event.printf "VRAM test FAIL at %08x\n" args ∉ new) :=
  ⟨ideal_faultFree 32 _ _ memory_test_addr_inj, ideal_faultFree 16 _ _ vram_test_addr_inj,
    (round_trip ideal (boot []) (ideal_faultFree 32 _ _ memory_test_addr_inj)
      (ideal_faultFree 16 _ _ vram_test_addr_inj)).2.1,
    (round_trip ideal (boot []) (ideal_faultFree 32 _ _ memory_test_addr_inj)
      (ideal_faultFree 16 _ _ vram_test_addr_inj)).2.2.2⟩

/-- C3 fails on the code. The loop bound `size_words` is 0x20000, so indices 0
and 0x10000 are both in the tested range of `vram_test`; they are distinct and
both get the pattern 0xAAAA, so the claimed injectivity over `[0, 0x20000)`
does not hold.  The comment at the bound says "128KB VRAM in words", which is
0x10000 words of 16 bits. -/
theorem vram_pattern_collision :
    vram_test.size_words = 0x20000 ∧
    (0 : Nat) ≠ 0x10000 ∧ 0x10000 < vram_test.size_words ∧
    vram_test.pattern 0 = 0xAAAA ∧ vram_test.pattern 0x10000 = 0xAAAA ∧
    ¬ (∀ i j, i < 0x20000 → j < 0x20000 → i ≠ j →
      vram_test.pattern i ≠ vram_test.pattern j) := by
  refine ⟨by unfold vram_test.size_words; rfl, by norm_num,
    by unfold vram_test.size_words; norm_num, by decide, by decide, ?_⟩
  intro h
  exact h 0 0x10000 (by norm_num) (by norm_num) (by norm_num) (by decide)

/-- Over the range the comment at `size_words` documents, 128KB or 0x10000
words of 16 bits, the pattern of `vram_test` is injective. -/
theorem vram_pattern_injective_documented (i j : Nat) (hi : i < 0x10000) (hj : j < 0x10000)
    (hne : i ≠ j) : vram_test.pattern i ≠ vram_test.pattern j := by
  rw [Ne, vram_test_pattern_eq_iff]
  omega

/-- C4. The pattern of `memory_test` on 32-bit indices is the xor with the
non-zero constant 0xAAAAAAAA, tells apart any two distinct indices (so any two
of the tested range `[0, 0x1000)`), and is its own inverse. -/
theorem memory_pattern_injective (i j : Nat) (hi : i < 2 ^ 32) (hj : j < 2 ^ 32) :
    memory_test.pattern i = i ^^^ 0xAAAAAAAA ∧ (0xAAAAAAAA : Nat) ≠ 0 ∧
    (i ≠ j → memory_test.pattern i ≠ memory_test.pattern j) ∧
    memory_test.pattern (memory_test.pattern i) = i := by
  refine ⟨memory_test_pattern_eq i hi, by norm_num, ?_, ?_⟩
  · intro hne h
    rw [memory_test_pattern_eq i hi, memory_test_pattern_eq j hj] at h
    exact hne (Nat.xor_left_inj.mp h)
  · rw [memory_test_pattern_eq _ (memory_test_pattern_lt i), memory_test_pattern_eq i hi]
    exact Nat.xor_cancel_right _ _

/-- Witness of C4 at the first and the last index of the tested range. -/
theorem memory_pattern_injective_witness :
    memory_test.pattern 0 = 0 ^^^ 0xAAAAAAAA ∧ (0xAAAAAAAA : Nat) ≠ 0 ∧
    (0 ≠ 0xFFF → memory_test.pattern 0 ≠ memory_test.pattern 0xFFF) ∧
    memory_test.pattern (memory_test.pattern 0) = 0 :=
  memory_pattern_injective 0 0xFFF (by norm_num) (by norm_num)

/-- C10. The pattern of `vram_test` depends on the low 16 bits of the index
only; the simulated backing `aliased`, in which words `i` and `i + 0x10000` are
one cell (so it is not fault-free), passes `vram_test`: PASS is reported, no
FAIL, and `true` is returned. -/
theorem vram_alias_pass (w : World (Nat → Nat)) :
    (∀ i, i < 0x10000 → vram_test.pattern (i + 0x10000) = vram_test.pattern i) ∧
    (∀ s i v, i < 0x10000 →
      aliased.load (aliased.store s 16 (vram_test.addr (i + 0x10000)) v) 16 (vram_test.addr i)
        = v) ∧
    ¬ FaultFree aliased 16 vram_test.addr 0x20000 ∧
    (vram_test aliased w).1 = true ∧
    ∃ new, (vram_test aliased w).2.trace = new ++ w.trace ∧
      Event.printf "VRAM test PASS\n" [] ∈ new ∧
      ∀ args, Event.printf "VRAM test FAIL at %08x\n" args ∉ new := by
  have halias : ∀ (s : Nat → Nat) i v, i < 0x10000 →
      aliased.load (aliased.store s 16 (vram_test.addr (i + 0x10000)) v) 16 (vram_test.addr i)
        = v := by
    intro s i v hi
    have h1 : vram_test.vram + 2 * 0x10000 ≤ vram_test.addr (i + 0x10000) := by
      unfold vram_test.addr; omega
    have h2 : ¬ vram_test.vram + 2 * 0x10000 ≤ vram_test.addr i := by
      unfold vram_test.addr; omega
    have h3 : vram_test.addr (i + 0x10000) - 2 * 0x10000 = vram_test.addr i := by
      unfold vram_test.addr; omega
    simp only [aliased, simulated, if_pos h1, if_neg h2, h3, if_true]
  refine ⟨fun i _ => ?_, halias, ?_, vram_test_pass_report aliased w
    (vram_test_readback_aliased w)⟩
  · rw [vram_test_pattern_eq_iff]; omega
  · intro hff
    have h1 := hff (fun _ => 0) 0x10000 0 1 (by norm_num) (by norm_num) (by norm_num)
    rw [halias (fun _ => 0) 0 1 (by norm_num)] at h1
    simp [aliased, simulated, vram_test.addr, vram_test.vram] at h1

/-! ## The menu machine -/

theorem pad_port_status_get_cons (w : World σ) (p : pad_state_t) (rest : List pad_state_t)
    (hp : w.pads = p :: rest) :
    pad_port_status_get w = some (p, { w with pads := rest }) := by
  unfold pad_port_status_get
  rw [hp]

/-- `held` over a union of masks. -/
theorem held_or (pad : pad_state_t) (a b : Nat) :
    held pad (a ||| b) = (held pad a || held pad b) := by
  unfold held
  rw [Nat.and_or_distrib_left]
  have h : ∀ x y : Nat, (x ||| y = 0) ↔ (x = 0 ∧ y = 0) := by
    intro x y
    constructor
    · intro h
      have hx : ∀ i, (x ||| y).testBit i = false := by intro i; rw [h]; simp
      simp only [Nat.testBit_or, Bool.or_eq_false_iff] at hx
      exact ⟨Nat.eq_of_testBit_eq (fun i => by simp [(hx i).1]),
        Nat.eq_of_testBit_eq (fun i => by simp [(hx i).2])⟩
    · rintro ⟨rfl, rfl⟩; rfl
  rw [Bool.eq_iff_iff]
  simp only [bne_iff_ne, ne_eq, Bool.or_eq_true, h]
  tauto

theorem run_succ (m : PadMasks) (B : Backing σ) (n : Nat) (st : Machine σ) :
    run m B (n + 1) st =
      match step m B (run m B n st) with
      | none => run m B n st
      | some st1 => st1 := by
  induction n generalizing st with
  | zero => rfl
  | succ n ih =>
    rw [run]
    cases h : step m B st with
    | none =>
      have h1 : run m B (n + 1) st = st := by rw [run, h]
      rw [h1, h]
    | some st1 =>
      simp only
      rw [ih st1]
      conv_rhs => rw [run, h]

/-- The selection after Up or Down is a valid ordinal, and equals the wrapped
value. -/
theorem select_up_eq (s : Int) (h0 : 0 ≤ s) (h7 : s < 7) :
    select_up s = (s - 1 + 7) % 7 := by
  unfold select_up MENU_COUNT
  exact Int.tmod_eq_emod (by omega) (by norm_num)

theorem select_down_eq (s : Int) (h0 : 0 ≤ s) (_h7 : s < 7) :
    select_down s = (s + 1) % 7 := by
  unfold select_down MENU_COUNT
  exact Int.tmod_eq_emod (by omega) (by norm_num)

theorem select_up_range (s : Int) (h0 : 0 ≤ s) (h7 : s < 7) :
    0 ≤ select_up s ∧ select_up s < 7 := by
  rw [select_up_eq s h0 h7]; omega

theorem select_down_range (s : Int) (h0 : 0 ≤ s) (h7 : s < 7) :
    0 ≤ select_down s ∧ select_down s < 7 := by
  rw [select_down_eq s h0 h7]; omega

theorem dispatch_selected_eq (B : Backing σ) (st : Machine σ) :
    (dispatch B st).selected = st.selected := by
  unfold dispatch dismiss_prompt
  repeat' split
  all_goals rfl

theorem dispatch_phase (B : Backing σ) (st : Machine σ) :
    phase (dispatch B st).pc = Phase.Executing ∨
      phase (dispatch B st).pc = Phase.AwaitingDismissal := by
  unfold dispatch dismiss_prompt
  repeat' split
  all_goals simp [phase]

theorem test_iter_selected (st : Machine σ) (r : Bool × World σ) :
    (test_iter st r).selected = st.selected := by
  unfold test_iter dismiss_prompt
  split <;> rfl

theorem test_iter_pc (st : Machine σ) (r : Bool × World σ) :
    (test_iter st r).pc = if r.1 then Pc.dismiss_poll else st.pc := by
  unfold test_iter dismiss_prompt
  split <;> rfl

theorem dismiss_iter_selected (m : PadMasks) (st : Machine σ) (pad : pad_state_t)
    (w : World σ) : (dismiss_iter m st pad w).selected = st.selected := by
  unfold dismiss_iter
  split <;> rfl

theorem dismiss_iter_pc (m : PadMasks) (st : Machine σ) (pad : pad_state_t) (w : World σ) :
    (dismiss_iter m st pad w).pc =
      if held pad (m.PAD_BUTTON_START ||| m.PAD_BUTTON_A) then Pc.menu_poll else st.pc := by
  unfold dismiss_iter
  split <;> rfl

theorem menu_iter_range (m : PadMasks) (st : Machine σ) (pad : pad_state_t) (w : World σ)
    (h0 : 0 ≤ st.selected) (h7 : st.selected < 7) :
    0 ≤ (menu_iter m st pad w).selected ∧ (menu_iter m st pad w).selected < 7 := by
  unfold menu_iter
  split
  · exact select_up_range _ h0 h7
  · split
    · exact select_down_range _ h0 h7
    · split <;> exact ⟨h0, h7⟩

theorem menu_iter_phase (m : PadMasks) (st : Machine σ) (pad : pad_state_t) (w : World σ)
    (hpc : st.pc = Pc.menu_poll) :
    phase (menu_iter m st pad w).pc = Phase.Browsing ∨
      phase (menu_iter m st pad w).pc = Phase.Executing := by
  unfold menu_iter
  split
  · simp [hpc, phase]
  · split
    · simp [hpc, phase]
    · split <;> simp [hpc, phase]

/-- A step keeps the selection a valid ordinal. -/
theorem step_range (m : PadMasks) (B : Backing σ) (st st1 : Machine σ)
    (h : step m B st = some st1) (h0 : 0 ≤ st.selected) (h7 : st.selected < 7) :
    0 ≤ st1.selected ∧ st1.selected < 7 := by
  unfold step at h
  split at h
  · cases h; rw [dispatch_selected_eq]; exact ⟨h0, h7⟩
  all_goals
    cases hg : pad_port_status_get st.w with
    | none => rw [hg] at h; cases h
    | some r =>
      rw [hg] at h
      simp only [Option.map_some', Option.some.injEq] at h
      subst h
      first
        | exact menu_iter_range m st r.1 r.2 h0 h7
        | (rw [test_iter_selected]; exact ⟨h0, h7⟩)
        | (rw [dismiss_iter_selected]; exact ⟨h0, h7⟩)

/-- Outside Browsing a step leaves the selection alone. -/
theorem step_frame (m : PadMasks) (B : Backing σ) (st st1 : Machine σ)
    (h : step m B st = some st1) (hph : phase st.pc ≠ Phase.Browsing) :
    st1.selected = st.selected := by
  unfold step at h
  split at h
  · cases h; exact dispatch_selected_eq B st
  · next hpc => rw [hpc] at hph; exact absurd rfl hph
  all_goals
    cases hg : pad_port_status_get st.w with
    | none => rw [hg] at h; cases h
    | some r =>
      rw [hg] at h
      simp only [Option.map_some', Option.some.injEq] at h
      subst h
      first
        | exact test_iter_selected _ _
        | exact dismiss_iter_selected _ _ _ _

/-- A step moves along the cycle Browsing, Executing, AwaitingDismissal, one
phase at a time or not at all. -/
theorem step_phase (m : PadMasks) (B : Backing σ) (st st1 : Machine σ)
    (h : step m B st = some st1) :
    (phase st.pc = Phase.Browsing →
      phase st1.pc = Phase.Browsing ∨ phase st1.pc = Phase.Executing) ∧
    (phase st.pc = Phase.Executing →
      phase st1.pc = Phase.Executing ∨ phase st1.pc = Phase.AwaitingDismissal) ∧
    (phase st.pc = Phase.AwaitingDismissal →
      phase st1.pc = Phase.AwaitingDismissal ∨ phase st1.pc = Phase.Browsing) := by
  unfold step at h
  split at h
  · next hpc =>
    cases h
    simp only [hpc, phase, reduceCtorEq, false_implies, true_implies, true_and, and_true]
    exact dispatch_phase B st
  all_goals
    next hpc =>
    cases hg : pad_port_status_get st.w with
    | none => rw [hg] at h; cases h
    | some r =>
      rw [hg] at h
      simp only [Option.map_some', Option.some.injEq] at h
      subst h
      simp only [hpc, phase, reduceCtorEq, false_implies, true_implies, true_and, and_true]
      first
        | exact menu_iter_phase m st r.1 r.2 hpc
        | (rw [test_iter_pc]; split_ifs <;> simp [hpc, phase])
        | (rw [dismiss_iter_pc]; split_ifs <;> simp [hpc, phase])

theorem step_menu_poll (m : PadMasks) (B : Backing σ) (st : Machine σ) (p : pad_state_t)
    (rest : List pad_state_t) (hpc : st.pc = Pc.menu_poll) (hp : st.w.pads = p :: rest) :
    step m B st = some (menu_iter m st p { st.w with pads := rest }) := by
  unfold step
  rw [hpc]
  simp only [pad_port_status_get_cons st.w p rest hp, Option.map_some']

theorem step_dismiss_poll (m : PadMasks) (B : Backing σ) (st : Machine σ) (p : pad_state_t)
    (rest : List pad_state_t) (hpc : st.pc = Pc.dismiss_poll) (hp : st.w.pads = p :: rest) :
    step m B st = some (dismiss_iter m st p { st.w with pads := rest }) := by
  unfold step
  rw [hpc]
  simp only [pad_port_status_get_cons st.w p rest hp, Option.map_some']

theorem step_controller_poll (m : PadMasks) (B : Backing σ) (st : Machine σ)
    (p : pad_state_t) (rest : List pad_state_t) (hpc : st.pc = Pc.controller_poll)
    (hp : st.w.pads = p :: rest) :
    step m B st =
      some (test_iter st (monitor_controller.iter m p { st.w with pads := rest })) := by
  unfold step
  rw [hpc]
  simp only [pad_port_status_get_cons st.w p rest hp, Option.map_some']

theorem step_sprite_poll (m : PadMasks) (B : Backing σ) (st : Machine σ)
    (p : pad_state_t) (rest : List pad_state_t) (hpc : st.pc = Pc.sprite_poll)
    (hp : st.w.pads = p :: rest) :
    step m B st = some (test_iter st (sprite_test.iter m p { st.w with pads := rest })) := by
  unfold step
  rw [hpc]
  simp only [pad_port_status_get_cons st.w p rest hp, Option.map_some']

theorem step_cpu_poll (m : PadMasks) (B : Backing σ) (st : Machine σ)
    (p : pad_state_t) (rest : List pad_state_t) (hpc : st.pc = Pc.cpu_poll)
    (hp : st.w.pads = p :: rest) :
    step m B st =
      some (test_iter st (cpu_register_dump.iter m p { st.w with pads := rest })) := by
  unfold step
  rw [hpc]
  simp only [pad_port_status_get_cons st.w p rest hp, Option.map_some']

theorem step_dispatch (m : PadMasks) (B : Backing σ) (st : Machine σ)
    (hpc : st.pc = Pc.dispatch) : step m B st = some (dispatch B st) := by
  unfold step
  rw [hpc]

theorem run_one (m : PadMasks) (B : Backing σ) (st st1 : Machine σ)
    (h : step m B st = some st1) : run m B 1 st = st1 := by
  rw [run, h]; rfl

/-- The Accept branch of the outer loop. -/
theorem menu_iter_accept (m : PadMasks) (st : Machine σ) (p : pad_state_t) (w : World σ)
    (hup : held p m.PAD_BUTTON_UP = false) (hdown : held p m.PAD_BUTTON_DOWN = false)
    (hacc : held p m.PAD_BUTTON_A = true ∨ held p m.PAD_BUTTON_START = true) :
    menu_iter m st p w =
      { st with pc := Pc.dispatch,
                w := dbgio_flush (dbgio_printf "Running %s...\n"
                  [Arg.str (running_name st.selected)] (dbgio_clear w)) } := by
  have h : held p (m.PAD_BUTTON_A ||| m.PAD_BUTTON_START) = true := by
    rw [held_or]; rcases hacc with h | h <;> simp [h]
  unfold menu_iter
  simp [hup, hdown, h]

/-- Once the machine is Executing at step 1, it is Executing until it is
AwaitingDismissal. -/
theorem run_exec_then_dismiss (m : PadMasks) (B : Backing σ) (st : Machine σ)
    (h1 : phase (run m B 1 st).pc = Phase.Executing) (n : Nat) (hn : 1 ≤ n) :
    (∀ t, 1 ≤ t → t ≤ n → phase (run m B t st).pc = Phase.Executing) ∨
    (∃ j, 1 < j ∧ j ≤ n ∧ phase (run m B j st).pc = Phase.AwaitingDismissal ∧
      ∀ t, 1 ≤ t → t < j → phase (run m B t st).pc = Phase.Executing) := by
  induction n with
  | zero => omega
  | succ n ih =>
    rcases Nat.eq_or_lt_of_le hn with h | h
    · left
      intro t ht1 ht2
      have : t = 1 := by omega
      subst this; exact h1
    · rcases ih (by omega) with hall | ⟨j, hj1, hj2, hj3, hj4⟩
      · have hph := hall n (by omega) (le_refl _)
        cases hs : step m B (run m B n st) with
        | none =>
          left
          intro t ht1 ht2
          rcases Nat.eq_or_lt_of_le ht2 with e | l
          · subst e; rw [run_succ, hs]; exact hph
          · exact hall t ht1 (by omega)
        | some st1 =>
          have hrun : run m B (n + 1) st = st1 := by rw [run_succ, hs]
          rcases (step_phase m B _ _ hs).2.1 hph with e | e
          · left
            intro t ht1 ht2
            rcases Nat.eq_or_lt_of_le ht2 with e1 | l
            · subst e1; rw [hrun]; exact e
            · exact hall t ht1 (by omega)
          · right
            exact ⟨n + 1, by omega, le_refl _, by rw [hrun]; exact e,
              fun t ht1 ht2 => hall t ht1 (by omega)⟩
      · right
        exact ⟨j, hj1, by omega, hj3, hj4⟩

/-- While the machine has not been Browsing since step 1, the selection is
the one it started with. -/
theorem run_frame (m : PadMasks) (B : Backing σ) (st : Machine σ)
    (h1 : (run m B 1 st).selected = st.selected) (n : Nat) (hn : 1 ≤ n)
    (hnb : ∀ t, 1 ≤ t → t < n → phase (run m B t st).pc ≠ Phase.Browsing) :
    (run m B n st).selected = st.selected := by
  induction n with
  | zero => omega
  | succ n ih =>
    rcases Nat.eq_or_lt_of_le hn with h | h
    · have : n = 0 := by omega
      subst this; exact h1
    · have ihn := ih (by omega) (fun t ht1 ht2 => hnb t ht1 (by omega))
      rw [run_succ]
      cases hs : step m B (run m B n st) with
      | none => exact ihn
      | some st1 =>
        simp only
        rw [step_frame m B _ _ hs (hnb n (by omega) (by omega)), ihn]

/-! ## Claims about the menu -/

/-- Counterexample to C5 as stated: on the digital pad, a sample with both Up
and A held has the Accept signal set, yet from Browsing at selection 0 the
menu moves the selection to 6 and keeps browsing; no test is executed. -/
theorem accept_with_up_keeps_browsing :
    held (press 0x1400) digital_pad.PAD_BUTTON_A = true ∧
    (step digital_pad ideal (run_menu.enter (boot [press 0x1400]))).map
      (fun st => (st.pc, st.selected)) = some (Pc.menu_poll, 6) := by
  decide

/-- C5, amended. In Browsing, a pad sample with the Accept signal (A or Start)
set and neither Up nor Down set takes the menu to the `switch` on the current
selection (Executing); the next step runs that `switch`; an interactive test
that sees Start returns into AwaitingDismissal; and whenever the menu is
Browsing again, it has been AwaitingDismissal in between, after steps that
were all Executing. -/
theorem accept_enters_executing (m : PadMasks) (B : Backing σ) (st : Machine σ)
    (p : pad_state_t) (rest : List pad_state_t)
    (hpc : st.pc = Pc.menu_poll) (hp : st.w.pads = p :: rest)
    (hup : held p m.PAD_BUTTON_UP = false) (hdown : held p m.PAD_BUTTON_DOWN = false)
    (hacc : held p m.PAD_BUTTON_A = true ∨ held p m.PAD_BUTTON_START = true) :
    ∃ st1, step m B st = some st1 ∧ st1.pc = Pc.dispatch ∧
      phase st1.pc = Phase.Executing ∧ st1.selected = st.selected ∧
      step m B st1 = some (dispatch B st1) ∧
      (phase (dispatch B st1).pc = Phase.Executing ∨
        phase (dispatch B st1).pc = Phase.AwaitingDismissal) ∧
      (∀ (st2 : Machine σ) p2 rest2, phase st2.pc = Phase.Executing → st2.pc ≠ Pc.dispatch →
        st2.w.pads = p2 :: rest2 → held p2 m.PAD_BUTTON_START = true →
        ∃ st3, step m B st2 = some st3 ∧ phase st3.pc = Phase.AwaitingDismissal) ∧
      (∀ n, 1 ≤ n → phase (run m B n st).pc = Phase.Browsing →
        ∃ j, 1 < j ∧ j < n ∧ phase (run m B j st).pc = Phase.AwaitingDismissal ∧
          ∀ t, 1 ≤ t → t < j → phase (run m B t st).pc = Phase.Executing) := by
  have hstep := step_menu_poll m B st p rest hpc hp
  rw [menu_iter_accept m st p _ hup hdown hacc] at hstep
  have hrun1 := run_one m B st _ hstep
  refine ⟨_, hstep, rfl, rfl, rfl, step_dispatch m B _ rfl, dispatch_phase B _, ?_, ?_⟩
  · intro st2 p2 rest2 hph hnd hp2 hstart
    cases hc : st2.pc with
    | menu_poll => rw [hc] at hph; cases hph
    | dispatch => exact absurd hc hnd
    | dismiss_poll => rw [hc] at hph; cases hph
    | controller_poll =>
      refine ⟨_, step_controller_poll m B st2 p2 rest2 hc hp2, ?_⟩
      rw [test_iter_pc]
      simp [monitor_controller.iter, hstart, phase]
    | sprite_poll =>
      refine ⟨_, step_sprite_poll m B st2 p2 rest2 hc hp2, ?_⟩
      rw [test_iter_pc]
      simp [sprite_test.iter, hstart, phase]
    | cpu_poll =>
      refine ⟨_, step_cpu_poll m B st2 p2 rest2 hc hp2, ?_⟩
      rw [test_iter_pc]
      simp [cpu_register_dump.iter, hstart, phase]
  · intro n hn hb
    rcases run_exec_then_dismiss m B st (by rw [hrun1]; rfl) n hn with hall | ⟨j, h1, h2, h3, h4⟩
    · rw [hall n hn (le_refl _)] at hb; cases hb
    · refine ⟨j, h1, ?_, h3, h4⟩
      rcases Nat.eq_or_lt_of_le h2 with e | l
      · subst e; rw [h3] at hb; cases hb
      · exact l

/-- Witness of the amended C5: from the start of `run_menu`, a sample with only
Start held takes the menu to the `switch` on selection 0. -/
theorem accept_enters_executing_witness :
    ∃ st1, step digital_pad ideal (run_menu.enter (boot [press 0x0800])) = some st1 ∧
      st1.pc = Pc.dispatch ∧ phase st1.pc = Phase.Executing ∧ st1.selected = 0 := by
  obtain ⟨st1, h1, h2, h3, h4, _⟩ :=
    accept_enters_executing digital_pad ideal (run_menu.enter (boot [press 0x0800]))
      (press 0x0800) [] rfl rfl (by decide) (by decide) (Or.inr (by decide))
  exact ⟨st1, h1, h2, h3, h4⟩

/-- C6. In AwaitingDismissal a pad sample takes the menu back to Browsing
exactly when A or Start is held; any other sample, whatever its Up and Down
bits, leaves the machine in AwaitingDismissal; in both cases the selection is
unchanged. -/
theorem dismissal_iff_accept (m : PadMasks) (B : Backing σ) (st : Machine σ)
    (p : pad_state_t) (rest : List pad_state_t)
    (hpc : st.pc = Pc.dismiss_poll) (hp : st.w.pads = p :: rest) :
    ∃ st1, step m B st = some st1 ∧ st1.selected = st.selected ∧
      (phase st1.pc = Phase.Browsing ↔
        (held p m.PAD_BUTTON_A = true ∨ held p m.PAD_BUTTON_START = true)) ∧
      (¬ (held p m.PAD_BUTTON_A = true ∨ held p m.PAD_BUTTON_START = true) →
        st1.pc = Pc.dismiss_poll ∧ phase st1.pc = Phase.AwaitingDismissal) := by
  refine ⟨_, step_dismiss_poll m B st p rest hpc hp, dismiss_iter_selected _ _ _ _, ?_, ?_⟩
  · rw [dismiss_iter_pc, held_or, hpc]
    cases held p m.PAD_BUTTON_A <;> cases held p m.PAD_BUTTON_START <;> simp [phase]
  · intro h
    rw [dismiss_iter_pc, held_or, hpc]
    cases ha : held p m.PAD_BUTTON_A <;> cases hs : held p m.PAD_BUTTON_START <;>
      simp [phase, ha, hs] at h ⊢

/-- Witness of C6: in AwaitingDismissal at selection 3, a sample with Up and
Down held and neither A nor Start keeps the machine waiting at selection 3. -/
theorem dismissal_iff_accept_witness :
    ∃ st1, step digital_pad ideal
        { pc := Pc.dismiss_poll, selected := 3, w := boot [press 0x3000] } = some st1 ∧
      st1.selected = 3 ∧ st1.pc = Pc.dismiss_poll := by
  obtain ⟨st1, h1, h2, _, h4⟩ :=
    dismissal_iff_accept digital_pad ideal
      { pc := Pc.dismiss_poll, selected := 3, w := boot [press 0x3000] }
      (press 0x3000) [] rfl rfl
  exact ⟨st1, h1, h2, (h4 (by decide)).1⟩

/-- C7. In Browsing at a selection `s` in `[0, 7)`, a sample with Up held
yields selection `(s - 1 + 7) mod 7`, and a sample with Down held and Up not
held yields `(s + 1) mod 7`; the C remainder agrees with the mathematical one
here.  Up from 0 yields 6 and Down from 6 yields 0. -/
theorem selection_step (m : PadMasks) (B : Backing σ) (st : Machine σ)
    (p : pad_state_t) (rest : List pad_state_t)
    (hpc : st.pc = Pc.menu_poll) (hp : st.w.pads = p :: rest)
    (h0 : 0 ≤ st.selected) (h7 : st.selected < 7) :
    (held p m.PAD_BUTTON_UP = true →
      ∃ st1, step m B st = some st1 ∧ st1.pc = Pc.menu_poll ∧
        st1.selected = (st.selected - 1 + 7) % 7 ∧
        st1.selected = Int.tmod (st.selected - 1 + 7) 7 ∧
        (st.selected = 0 → st1.selected = 6)) ∧
    (held p m.PAD_BUTTON_UP = false → held p m.PAD_BUTTON_DOWN = true →
      ∃ st1, step m B st = some st1 ∧ st1.pc = Pc.menu_poll ∧
        st1.selected = (st.selected + 1) % 7 ∧
        st1.selected = Int.tmod (st.selected + 1) 7 ∧
        (st.selected = 6 → st1.selected = 0)) := by
  constructor
  · intro hup
    refine ⟨_, step_menu_poll m B st p rest hpc hp, ?_, ?_, ?_, ?_⟩
    · unfold menu_iter; simp [hup, hpc]
    · unfold menu_iter; simp only [hup, if_true]; exact select_up_eq _ h0 h7
    · unfold menu_iter; simp only [hup, if_true]; rfl
    · intro hs; unfold menu_iter; simp only [hup, if_true, hs]; decide
  · intro hup hdown
    refine ⟨_, step_menu_poll m B st p rest hpc hp, ?_, ?_, ?_, ?_⟩
    · unfold menu_iter; simp [hup, hdown, hpc]
    · unfold menu_iter
      simp only [hup, hdown, if_true, Bool.false_eq_true, if_false]
      exact select_down_eq _ h0 h7
    · unfold menu_iter
      simp only [hup, hdown, if_true, Bool.false_eq_true, if_false]
      rfl
    · intro hs
      unfold menu_iter
      simp only [hup, hdown, if_true, Bool.false_eq_true, if_false, hs]
      decide

/-- Witness of C7: Up at the start of `run_menu` (selection 0) yields 6. -/
theorem selection_step_witness :
    ∃ st1, step digital_pad ideal (run_menu.enter (boot [press 0x1000])) = some st1 ∧
      st1.pc = Pc.menu_poll ∧ st1.selected = 6 := by
  obtain ⟨st1, h1, h2, _, _, h5⟩ :=
    (selection_step digital_pad ideal (run_menu.enter (boot [press 0x1000]))
      (press 0x1000) [] rfl rfl (by decide) (by decide)).1 (by decide)
  exact ⟨st1, h1, h2, h5 rfl⟩

/-- C8. From the start of `run_menu`, whatever the pad samples and however many
steps are taken, the selection is a valid ordinal: `0 ≤ selected < 7`. -/
theorem selection_valid (m : PadMasks) (B : Backing σ) (w : World σ) (n : Nat) :
    0 ≤ (run m B n (run_menu.enter w)).selected ∧
      (run m B n (run_menu.enter w)).selected < MENU_COUNT ∧ MENU_COUNT = 7 := by
  have h : 0 ≤ (run m B n (run_menu.enter w)).selected ∧
      (run m B n (run_menu.enter w)).selected < 7 := by
    induction n with
    | zero => exact ⟨le_refl _, by simp [run, run_menu.enter]⟩
    | succ n ih =>
      rw [run_succ]
      cases hs : step m B (run m B n (run_menu.enter w)) with
      | none => exact ih
      | some st1 => exact step_range m B _ _ hs ih.1 ih.2
  exact ⟨h.1, h.2, rfl⟩

/-- Counterexample to C9 as stated: on the digital pad, after three Down samples
the selection is 3; a sample with both Down and Start held then has the Accept
signal set, yet the menu runs no `switch`: it moves the selection to 4 and is
Browsing again, and the trace holds no "Running %s..." announcement. -/
theorem accept_with_down_runs_no_test :
    (run digital_pad ideal 3 (run_menu.enter
      (boot (List.map press [0x2000, 0x2000, 0x2000, 0x2800])))).selected = 3 ∧
    held (press 0x2800) digital_pad.PAD_BUTTON_START = true ∧
    (run digital_pad ideal 4 (run_menu.enter
      (boot (List.map press [0x2000, 0x2000, 0x2000, 0x2800])))).pc = Pc.menu_poll ∧
    (run digital_pad ideal 4 (run_menu.enter
      (boot (List.map press [0x2000, 0x2000, 0x2000, 0x2800])))).selected = 4 ∧
    (run digital_pad ideal 4 (run_menu.enter
      (boot (List.map press [0x2000, 0x2000, 0x2000, 0x2800])))).w.pads = [] ∧
    ((run digital_pad ideal 4 (run_menu.enter
      (boot (List.map press [0x2000, 0x2000, 0x2000, 0x2800])))).w.trace.filter
        (fun e => match e with
          | Event.printf fmt _ => fmt == "Running %s...\n"
          | _ => false)) = [] := by
  decide

/-- C9, amended. In Browsing at selection `s`, a sample with the Accept signal
set and neither Up nor Down set leads to the `switch`, which runs exactly the
test of ordinal `s`: 0 `memory_test`, 1 `color_test`,
2 `monitor_controller`, 3 `sound_test`, 4 `sprite_test`, 5 `vram_test`,
6 `cpu_register_dump`; and as long as the menu has not browsed again, in
particular when it first is back in Browsing, the selection is still `s`. -/
theorem dispatch_runs_selected (m : PadMasks) (B : Backing σ) (st : Machine σ)
    (p : pad_state_t) (rest : List pad_state_t)
    (hpc : st.pc = Pc.menu_poll) (hp : st.w.pads = p :: rest)
    (hup : held p m.PAD_BUTTON_UP = false) (hdown : held p m.PAD_BUTTON_DOWN = false)
    (hacc : held p m.PAD_BUTTON_A = true ∨ held p m.PAD_BUTTON_START = true) :
    ∃ st1, step m B st = some st1 ∧ st1.pc = Pc.dispatch ∧ st1.selected = st.selected ∧
      step m B st1 = some (dispatch B st1) ∧
      (st.selected = 0 → dispatch B st1 = dismiss_prompt st1 (memory_test B st1.w)) ∧
      (st.selected = 1 → dispatch B st1 = dismiss_prompt st1 (color_test st1.w)) ∧
      (st.selected = 2 → dispatch B st1 =
        { st1 with pc := Pc.controller_poll, w := monitor_controller.enter st1.w }) ∧
      (st.selected = 3 → dispatch B st1 = dismiss_prompt st1 (sound_test B st1.w)) ∧
      (st.selected = 4 → dispatch B st1 =
        { st1 with pc := Pc.sprite_poll, w := sprite_test.enter B st1.w }) ∧
      (st.selected = 5 → dispatch B st1 = dismiss_prompt st1 (vram_test B st1.w).2) ∧
      (st.selected = 6 → dispatch B st1 =
        { st1 with pc := Pc.cpu_poll, w := cpu_register_dump.enter st1.w }) ∧
      (∀ n, 1 ≤ n → (∀ t, 1 ≤ t → t < n → phase (run m B t st).pc ≠ Phase.Browsing) →
        (run m B n st).selected = st.selected) := by
  have hstep := step_menu_poll m B st p rest hpc hp
  rw [menu_iter_accept m st p _ hup hdown hacc] at hstep
  have hrun1 := run_one m B st _ hstep
  refine ⟨_, hstep, rfl, rfl, step_dispatch m B _ rfl, ?_, ?_, ?_, ?_, ?_, ?_, ?_, ?_⟩
  · intro h; unfold dispatch; simp [h, MENU_MEMORY_TEST]
  · intro h; unfold dispatch; simp [h, MENU_MEMORY_TEST, MENU_COLOR_TEST]
  · intro h
    unfold dispatch
    simp [h, MENU_MEMORY_TEST, MENU_COLOR_TEST, MENU_CONTROLLER_TEST]
  · intro h
    unfold dispatch
    simp [h, MENU_MEMORY_TEST, MENU_COLOR_TEST, MENU_CONTROLLER_TEST, MENU_SOUND_TEST]
  · intro h
    unfold dispatch
    simp [h, MENU_MEMORY_TEST, MENU_COLOR_TEST, MENU_CONTROLLER_TEST, MENU_SOUND_TEST,
      MENU_SPRITE_TEST]
  · intro h
    unfold dispatch
    simp [h, MENU_MEMORY_TEST, MENU_COLOR_TEST, MENU_CONTROLLER_TEST, MENU_SOUND_TEST,
      MENU_SPRITE_TEST, MENU_VRAM_TEST]
  · intro h
    unfold dispatch
    simp [h, MENU_MEMORY_TEST, MENU_COLOR_TEST, MENU_CONTROLLER_TEST, MENU_SOUND_TEST,
      MENU_SPRITE_TEST, MENU_VRAM_TEST, MENU_CPU_REG_DUMP]
  · intro n hn hnb
    exact run_frame m B st (by rw [hrun1]) n hn hnb

/-- Witness of the amended C9: seven options, selection starting at 0; three Down samples
yield selection 3; a sample with A held then leads to the `switch`, which runs
`sound_test`; after one more sample with A held the menu is back in Browsing
with selection 3. -/
theorem dispatch_runs_selected_witness :
    (run digital_pad ideal 3 (run_menu.enter
      (boot (List.map press [0x2000, 0x2000, 0x2000, 0x0400, 0x0400])))).selected = 3 ∧
    (∃ st1, step digital_pad ideal (run digital_pad ideal 3 (run_menu.enter
        (boot (List.map press [0x2000, 0x2000, 0x2000, 0x0400, 0x0400])))) = some st1 ∧
      dispatch ideal st1 = dismiss_prompt st1 (sound_test ideal st1.w)) ∧
    (run digital_pad ideal 6 (run_menu.enter
      (boot (List.map press [0x2000, 0x2000, 0x2000, 0x0400, 0x0400])))).pc = Pc.menu_poll ∧
    (run digital_pad ideal 6 (run_menu.enter
      (boot (List.map press [0x2000, 0x2000, 0x2000, 0x0400, 0x0400])))).selected = 3 := by
  refine ⟨by decide, ?_, by decide, by decide⟩
  obtain ⟨st1, h1, _, _, _, _, _, _, h3, _⟩ :=
    dispatch_runs_selected digital_pad ideal (run digital_pad ideal 3 (run_menu.enter
      (boot (List.map press [0x2000, 0x2000, 0x2000, 0x0400, 0x0400]))))
      (press 0x0400) [press 0x0400] (by decide) (by decide) (by decide) (by decide)
      (Or.inl (by decide))
  exact ⟨st1, h1, h3 (by decide)⟩

end SaturnPost
